import Mathlib

/-!
Verification development for the Gestor Neto Contabilidade ingestion core.

The Python sources under `scripts/` and `app/` are shallowly embedded below:
dynamic dict payloads become association lists of `PyVal`, SQLAlchemy rows
become Lean structures, sessions become explicit state passing, and fallible
paths return `Except`.  Definitions follow the source files
(`scripts/db.py`, `scripts/acessorias_client.py`, `scripts/fetch_api.py`,
`scripts/fetch_deliveries.py`, `scripts/fuse_sources.py`,
`scripts/flatten_steps.py`, `scripts/build_processes_kpis_alerts.py`,
`scripts/pipeline.py`, `app/api.py`).
-/

namespace Gestor

/-! ## Python value model

Payload dictionaries hold strings, integers or `None`.  `PyVal.none` models a
missing key / Python `None`; truthiness follows Python (`""`, `0`, `None` are
falsy). -/

inductive PyVal where
  | none : PyVal
  | str (s : String) : PyVal
  | int (n : Int) : PyVal
  deriving DecidableEq, Repr

namespace PyVal

/-- Python truthiness for the values we model. -/
def truthy : PyVal → Bool
  | .none => false
  | .str s => s ≠ ""
  | .int n => n ≠ 0

/-- Python `a or b` restricted to `PyVal`. -/
def pOr (a b : PyVal) : PyVal := if a.truthy then a else b

/-- Python `str(value)` for the values we model (`str(None) = "None"`). -/
def strOf : PyVal → String
  | .none => "None"
  | .str s => s
  | .int n => toString n

end PyVal

open PyVal

/-- A Python dict payload: an association list from keys to values. -/
def Payload := List (String × PyVal)

instance : DecidableEq Payload := inferInstanceAs (DecidableEq (List (String × PyVal)))

instance : Repr Payload := inferInstanceAs (Repr (List (String × PyVal)))

instance : Append Payload := inferInstanceAs (Append (List (String × PyVal)))

instance : Membership (String × PyVal) Payload :=
  inferInstanceAs (Membership (String × PyVal) (List (String × PyVal)))

/-- `payload.get(key)` (missing key yields `None`). -/
def pget (p : Payload) (k : String) : PyVal :=
  match p.lookup k with
  | Option.some v => v
  | Option.none => .none

/-- `payload.get(key, default)`. -/
def pgetD (p : Payload) (k : String) (d : PyVal) : PyVal :=
  match p.lookup k with
  | Option.some v => v
  | Option.none => d

/-! ## Character and string helpers (ASCII, as used by the source data) -/

/-- ASCII lower-casing of one character (Python `.lower()` on the ASCII range;
the payloads and keyword lists in the source are ASCII). -/
def lcChar (c : Char) : Char :=
  if h : 65 ≤ c.toNat ∧ c.toNat ≤ 90 then Char.ofNatAux (c.toNat + 32) (Or.inl (by omega))
  else c

/-- ASCII upper-casing of one character (Python `.upper()` on the ASCII range). -/
def ucChar (c : Char) : Char :=
  if h : 97 ≤ c.toNat ∧ c.toNat ≤ 122 then Char.ofNatAux (c.toNat - 32) (Or.inl (by omega))
  else c

/-- Python `s.lower()` (ASCII). -/
def pyLower (s : String) : String := String.mk (s.toList.map lcChar)

/-- Python `s.upper()` (ASCII). -/
def pyUpper (s : String) : String := String.mk (s.toList.map ucChar)

/-- Characters stripped by Python `str.strip()` with no argument. -/
def isPyWS (c : Char) : Bool :=
  c = ' ' ∨ c = '\t' ∨ c = '\n' ∨ c = '\r' ∨ c = '\x0b' ∨ c = '\x0c'

/-- Strip leading whitespace from a character list. -/
def dropLead (l : List Char) : List Char := l.dropWhile isPyWS

/-- Strip trailing whitespace from a character list. -/
def dropTrail (l : List Char) : List Char := (l.reverse.dropWhile isPyWS).reverse

/-- Python `s.strip()`. -/
def pyStrip (s : String) : String := String.mk (dropTrail (dropLead s.toList))

/-- Python `s[:n]` on strings. -/
def pyTake (s : String) (n : Nat) : String := String.mk (s.toList.take n)

/-- Substring test on character lists (`needle in hay` in Python). -/
def containsSub : List Char → List Char → Bool
  | _, [] => true
  | [], _ :: _ => false
  | c :: hay, needle => needle.isPrefixOf (c :: hay) || containsSub hay needle

/-- Python `needle in hay` on strings. -/
def pyIn (needle hay : String) : Bool := containsSub hay.toList needle.toList

/-- String length via the character list (kernel-reducible). -/
def strLen (s : String) : Nat := s.toList.length

/-- Split a character list on a separator character (`str.split(sep)` for a
one-character separator). -/
def splitOnCharL (c : Char) : List Char → List (List Char)
  | [] => [[]]
  | x :: xs =>
      match splitOnCharL c xs with
      | [] => [[x]]
      | h :: t => if x = c then [] :: h :: t else (x :: h) :: t

/-- `s.split(c)` as strings. -/
def pySplitC (s : String) (c : Char) : List String :=
  (splitOnCharL c s.toList).map String.mk

/-- Decimal digits to a number, `none` unless nonempty and all digits. -/
def digitsToNat (l : List Char) : Option Nat :=
  if l ≠ [] ∧ l.all Char.isDigit then
    Option.some (l.foldl (fun n c => n * 10 + (c.toNat - 48)) 0)
  else Option.none

/-- `int(s)` on a decimal literal with optional leading minus. -/
def strToInt (s : String) : Option Int :=
  match s.toList with
  | '-' :: rest => (digitsToNat rest).map (fun n => -(Int.ofNat n))
  | l => (digitsToNat l).map Int.ofNat

/-! ## Integer / date helpers -/

/-- Python `int(str(value).strip())` returning `none` on failure, as in
`db._as_int` (which also maps `None` and `""` to `None`). -/
def asInt (v : PyVal) : Option Int :=
  match v with
  | .none => Option.none
  | .int n => Option.some n
  | .str s =>
      let t := pyStrip s
      if t = "" then Option.none else strToInt t

/-- `db.normalize_cnpj`: keep only digits of `str(value)`; empty result maps
to `None`. -/
def normalizeCnpj (v : PyVal) : Option String :=
  match v with
  | .none => Option.none
  | w =>
      let digits := (strOf w).toList.filter Char.isDigit
      if digits.isEmpty then Option.none else Option.some (String.mk digits)

/-- Day count since 1970-01-01 for a civil date (Howard Hinnant's algorithm,
mirroring what `datetime.date` arithmetic computes). -/
def daysFromCivil (y : Int) (m d : Int) : Int :=
  let y1 : Int := if m ≤ 2 then y - 1 else y
  let era : Int := (if 0 ≤ y1 then y1 else y1 - 399) / 400
  let yoe : Int := y1 - era * 400
  let mp : Int := (m + 9) % 12
  let doy : Int := (153 * mp + 2) / 5 + d - 1
  let doe : Int := yoe * 365 + yoe / 4 - yoe / 100 + doy
  era * 146097 + doe - 719468

/-- Inverse of `daysFromCivil`: civil date `(y, m, d)` of an epoch day. -/
def civilFromDays (z0 : Int) : Int × Int × Int :=
  let z : Int := z0 + 719468
  let era : Int := (if 0 ≤ z then z else z - 146096) / 146097
  let doe : Int := z - era * 146097
  let yoe : Int := (doe - doe / 1460 + doe / 36524 - doe / 146096) / 365
  let y : Int := yoe + era * 400
  let doy : Int := doe - (365 * yoe + yoe / 4 - yoe / 100)
  let mp : Int := (5 * doy + 2) / 153
  let d : Int := doy - (153 * mp + 2) / 5 + 1
  let m : Int := mp + (if mp < 10 then 3 else -9)
  (if m ≤ 2 then y + 1 else y, m, d)

/-- Leap-year test (Gregorian). -/
def isLeap (y : Int) : Bool := (y % 4 = 0 ∧ y % 100 ≠ 0) ∨ y % 400 = 0

/-- Days in a month; `0` for an invalid month number. -/
def daysInMonth (y m : Int) : Int :=
  if m = 1 ∨ m = 3 ∨ m = 5 ∨ m = 7 ∨ m = 8 ∨ m = 10 ∨ m = 12 then 31
  else if m = 4 ∨ m = 6 ∨ m = 9 ∨ m = 11 then 30
  else if m = 2 then (if isLeap y then 29 else 28)
  else 0

/-- Validity of `datetime.date(y, m, d)` (raises `ValueError` otherwise). -/
def validDate (y m d : Int) : Bool :=
  1 ≤ y ∧ y ≤ 9999 ∧ 1 ≤ m ∧ m ≤ 12 ∧ 1 ≤ d ∧ d ≤ daysInMonth y m

/-- Zero-padded decimal rendering of a nonnegative integer. -/
def padNum (width : Nat) (n : Int) : String :=
  let s := toString n.toNat
  String.mk (List.replicate (width - s.length) '0') ++ s

/-- `date.isoformat()` / `strftime("%Y-%m-%d")` for an epoch day. -/
def fmtDate (day : Int) : String :=
  let c := civilFromDays day
  padNum 4 c.1 ++ "-" ++ padNum 2 c.2.1 ++ "-" ++ padNum 2 c.2.2

/-- `strftime("%Y-%m-%d %H:%M:%S")` for epoch seconds. -/
def fmtDateTime (t : Int) : String :=
  let day := t.fdiv 86400
  let rem := (t - day * 86400).toNat
  fmtDate day ++ " " ++ padNum 2 (Int.ofNat (rem / 3600)) ++ ":" ++
    padNum 2 (Int.ofNat ((rem % 3600) / 60)) ++ ":" ++ padNum 2 (Int.ofNat (rem % 60))

/-- Parse a decimal `Nat` (digits only). -/
def parseNatW (s : String) : Option Nat := digitsToNat s.toList

/-- Parse `"YYYY-MM-DD"` into an epoch day. -/
def parseIsoDate (s : String) : Option Int :=
  match pySplitC s '-' with
  | [ys, ms, ds] =>
      if strLen ys = 4 ∧ strLen ms = 2 ∧ strLen ds = 2 then
        match parseNatW ys, parseNatW ms, parseNatW ds with
        | Option.some y, Option.some m, Option.some d =>
            if validDate (Int.ofNat y) (Int.ofNat m) (Int.ofNat d) then
              Option.some (daysFromCivil (Int.ofNat y) (Int.ofNat m) (Int.ofNat d))
            else Option.none
        | _, _, _ => Option.none
      else Option.none
  | _ => Option.none

/-- Parse `"HH:MM:SS"` / `"HH:MM"` / `"HH"` into seconds of day. -/
def parseIsoTime (s : String) : Option Int :=
  let comp (hs ms ss : String) : Option Int :=
    match parseNatW hs, parseNatW ms, parseNatW ss with
    | Option.some h, Option.some m, Option.some sec =>
        if h ≤ 23 ∧ m ≤ 59 ∧ sec ≤ 59 then
          Option.some (Int.ofNat (h * 3600 + m * 60 + sec))
        else Option.none
    | _, _, _ => Option.none
  match pySplitC s ':' with
  | [hs] => comp hs "00" "00"
  | [hs, ms] => comp hs ms "00"
  | [hs, ms, ss] => comp hs ms ss
  | _ => Option.none

/-- ISO timestamp parser (the subset of `dateutil.parser.isoparse` /
`datetime.fromisoformat` exercised by this pipeline: a `YYYY-MM-DD` date,
optionally followed by `T` or a space and a time).  Timezone handling is
collapsed to a single zone, so offsets are not modelled.  Deterministic and
`none` on failure, like the source helpers. -/
def parseIso (s : String) : Option Int :=
  if strLen s = 10 then
    (parseIsoDate s).map (· * 86400)
  else if 11 < strLen s ∧ (pyTake (String.mk (s.toList.drop 10)) 1 = "T" ∨
      pyTake (String.mk (s.toList.drop 10)) 1 = " ") then
    match parseIsoDate (pyTake s 10), parseIsoTime (String.mk (s.toList.drop 11)) with
    | Option.some day, Option.some sec => Option.some (day * 86400 + sec)
    | _, _ => Option.none
  else Option.none

/-- `db.parse_datetime` on payload values: numbers are epoch seconds, strings
are parsed (best effort, `None` on failure).  The `dateutil` free-form parser
is modelled by the ISO subset above. -/
def parseDatetime (v : PyVal) : Option Int :=
  match v with
  | .none => Option.none
  | .int n => if n = 0 then Option.none else Option.some n
  | .str s => if s = "" then Option.none else parseIso s

/-! ## Resilient client (`scripts/acessorias_client.py`)

`AcessoriasClient._request` is modelled as a pure loop over a stream of
responses indexed by attempt number.  Sleeping (backoff, `Retry-After`) does
not change control flow and is not modelled. -/

/-- One HTTP response: status, body text, optional `Retry-After` header,
whether the `Content-Type` is JSON, and whether `r.json()` would succeed. -/
structure HttpResp where
  status : Nat
  body : String
  retryAfter : Option String
  contentTypeJson : Bool
  jsonOk : Bool
  deriving DecidableEq, Repr

/-- What one attempt observes: a response, or a `requests.RequestException`. -/
inductive Attempt where
  | ok (r : HttpResp)
  | netExc (name : String)
  deriving DecidableEq, Repr

/-- Outcome of `_request`. `exhausted` models the final
`RuntimeError("Falha ao contactar API após múltiplas tentativas | status=..,
body[:200]=.., ..")`, carrying the diagnostics embedded in that message. -/
inductive ReqResult where
  | payload (body : String)
  | emptyList
  | rawFallback (excerpt : String)
  | authError (code : Nat)
  | notFound
  | otherHttp (code : Nat) (excerpt : String)
  | exhausted (lastStatus : Option Nat) (excerpt : String) (lastExc : Option String)
  deriving DecidableEq, Repr

/-- `r.text[:400] if r.text else ""`. -/
def bodyExcerpt (b : String) : String := if b = "" then "" else pyTake b 400

/-- `_MAX_RETRIES` in `acessorias_client.py`. -/
def MAX_RETRIES : Nat := 7

/-- The `for attempt in range(1, retries + 1)` loop of `_request`, returning
the outcome together with the number of attempts performed. -/
def reqLoop (resp : Nat → Attempt) : Nat → Nat → Option Nat → Option String →
    Option String → ReqResult × Nat
  | _, 0, ls, lt, le => (.exhausted ls (pyTake (lt.getD "") 200) le, 0)
  | attempt, fuel + 1, ls, lt, le =>
    match resp attempt with
    | .netExc n =>
        let rr := reqLoop resp (attempt + 1) fuel ls lt (Option.some n)
        (rr.1, rr.2 + 1)
    | .ok r =>
        let ex := bodyExcerpt r.body
        if 200 ≤ r.status ∧ r.status < 300 then
          (if r.status = 204 then (.emptyList, 1)
           else if r.contentTypeJson then (.payload r.body, 1)
           else if r.jsonOk then (.payload r.body, 1)
           else (.rawFallback ex, 1))
        else if r.status = 401 ∨ r.status = 403 then (.authError r.status, 1)
        else if r.status = 404 then (.notFound, 1)
        else if r.status = 429 ∨ (500 ≤ r.status ∧ r.status < 600) then
          let rr := reqLoop resp (attempt + 1) fuel (Option.some r.status) (Option.some ex) le
          (rr.1, rr.2 + 1)
        else (.otherHttp r.status ex, 1)

/-- `AcessoriasClient._request` with the default retry budget. -/
def clientRequest (resp : Nat → Attempt) : ReqResult × Nat :=
  reqLoop resp 1 MAX_RETRIES Option.none Option.none Option.none

/-! ## Watermark controllers (`scripts/fetch_api.py`, `scripts/fetch_deliveries.py`)

Timestamps are epoch seconds in a single timezone. -/

/-- `fetch_api.compute_dt_last_dh` (the later, effective definition in the
module): subtract 5 minutes from the parsed last value; no clamping. -/
def computeDtLastDhApi (lastValue : Option String) : Option String :=
  match lastValue with
  | Option.none => Option.none
  | Option.some s =>
      if s = "" then Option.none
      else
        match parseIso s with
        | Option.none => Option.none
        | Option.some t => Option.some (fmtDateTime (t - 300))

/-- `fetch_deliveries.compute_dt_last_dh`: subtract 5 minutes, clamp below at
`datetime.combine(date.today() - timedelta(days=1), time.min)` (midnight of
yesterday); on a missing or unparsable value use that floor. -/
def computeDtLastDhDeliv (lastValue : Option String) (now : Int) : String :=
  let floor := (now.fdiv 86400 - 1) * 86400
  match lastValue with
  | Option.none => fmtDateTime floor
  | Option.some s =>
      if s = "" then fmtDateTime floor
      else
        match parseIso s with
        | Option.none => fmtDateTime floor
        | Option.some t =>
            let p := t - 300
            fmtDateTime (if p < floor then floor else p)

/-- The watermark the spec describes: `last − 5 min`, clamped to
`[now − 1 day, now]`.  Stated from the spec for comparison with the code. -/
def specClampedWatermark (last now : Int) : Int :=
  max (now - 86400) (min (last - 300) now)

/-! ## Event fusion (`scripts/fuse_sources.py`)

Events are raw dict payloads.  `make_key` SHA-1-hashes a joined string; the
hash is modelled by its preimage (equality of keys is preserved, up to SHA-1
collisions which the source assumes away). -/

/-- `sep.join(parts)`. -/
def pyJoin (sep : String) : List String → String
  | [] => ""
  | [x] => x
  | x :: y :: rest => x ++ sep ++ pyJoin sep (y :: rest)

/-- The joined key string of `fuse_sources.make_key`. -/
def makeKey (e : Payload) : String :=
  pyJoin "||"
    (["source", "empresa", "subtipo", "status", "competencia", "prazo", "entrega"].map
      (fun f => strOf (pOr (pget e f) (.str ""))))

/-- `fuse_sources.prefer_email`: the override-keyword predicate. -/
def preferEmail (e : Payload) : Bool :=
  let blob := pyLower (pyJoin " "
    (["subtipo", "status", "descricao", "mensagem"].map (fun f => strOf (pgetD e f (.str "")))))
  ["mit", "dispensa", "confirma"].any (fun tok => pyIn tok blob)

/-- Python dict assignment `m[k] = v`: replace in place if the key exists,
else append (insertion order preserved). -/
def dictSet (m : List (String × Payload)) (k : String) (v : Payload) :
    List (String × Payload) :=
  if (m.lookup k).isSome then m.map (fun kv => if kv.1 = k then (k, v) else kv)
  else m ++ [(k, v)]

/-- A recorded fusion divergence (both versions preserved). -/
structure Divergence where
  key : String
  api : Payload
  email : Payload
  deriving DecidableEq

/-- State of the fusion loop. -/
structure FuseState where
  merged : List (String × Payload)
  divergences : List Divergence
  deriving DecidableEq

/-- Seeding pass: `for event in api_events: merged[make_key(event)] = event`. -/
def fuseSeed (api : List Payload) : List (String × Payload) :=
  api.foldl (fun m e => dictSet m (makeKey e) e) []

/-- Body of the `for event in email_events` loop of `fuse_sources.fuse`. -/
def fuseStep (st : FuseState) (e : Payload) : FuseState :=
  let key := makeKey e
  match st.merged.lookup key with
  | Option.none => { st with merged := dictSet st.merged key e }
  | Option.some existing =>
      if existing.isEmpty then { st with merged := dictSet st.merged key e }
      else if pget existing "categoria" = .str "obrigacao" ∧
          pget e "categoria" = .str "obrigacao" then st
      else if preferEmail e then
        { merged := dictSet st.merged key e,
          divergences := st.divergences ++ [⟨key, existing, e⟩] }
      else st

/-- `fuse_sources.fuse`. -/
def fuse (api email : List Payload) : List Payload × List Divergence :=
  let st := email.foldl fuseStep ⟨fuseSeed api, []⟩
  (st.merged.map (·.2), st.divergences)

/-! ## Tree flattener (`Gestor_Neto_Contabilidade-main/scripts/flatten_steps.py`)

The untyped nested step dicts are parsed at the ingestion boundary into a
typed `Step` tree (name fields are strings, `""` for a missing key; a
non-string name would make the Python `.lower()` call raise and is outside
the embedded domain). -/

/-- Python `a or b` on strings (`""` is falsy). -/
def sOr (a b : String) : String := if a ≠ "" then a else b

/-- `Option PyVal`-style truthiness for `Option String` values. -/
def optTruthy : Option String → Bool
  | Option.none => false
  | Option.some s => s ≠ ""

/-- Lift an optional string back into a payload value. -/
def optToVal : Option String → PyVal
  | Option.none => .none
  | Option.some s => .str s

/-- The nested `Entrega` sub-object of a step's `Automacao`. -/
structure EntregaObj where
  prazo : String
  entregaPrazo : String
  responsavel : PyVal
  nome : String
  deriving DecidableEq, Repr

/-- The `Automacao` / `AutomacaoEntrega` sub-object of a step. -/
structure AutomObj where
  bloqueante : PyVal
  entrega : Option EntregaObj
  deriving DecidableEq, Repr

/-- One node of the `ProcPassos` tree. -/
inductive Step where
  | node (nome : String) (descricao : String) (status : PyVal)
      (autom : Option AutomObj) (children : List Step)

/-- One entry of the externally supplied `rules.json` matcher table. -/
structure Rule where
  contains : String
  categoria : PyVal
  subtipo : PyVal
  status : PyVal
  deriving DecidableEq, Repr

/-- `flatten_steps.match_rule`: first rule whose non-empty `contains` is a
case-insensitive substring of the label. -/
def matchRule (name : String) : List Rule → Option Rule
  | [] => Option.none
  | r :: rs =>
      let needle := pyLower r.contains
      if needle ≠ "" ∧ pyIn needle (pyLower name) then Option.some r
      else matchRule name rs

/-- Parse `"HH:MM:SS"` (the `%H:%M:%S` part of `strptime`). -/
def parseTimeHms (s : String) : Option Int :=
  match pySplitC s ':' with
  | [hs, ms, ss] =>
      match parseNatW hs, parseNatW ms, parseNatW ss with
      | Option.some h, Option.some m, Option.some sec =>
          if h ≤ 23 ∧ m ≤ 59 ∧ sec ≤ 59 then
            Option.some (Int.ofNat (h * 3600 + m * 60 + sec))
          else Option.none
      | _, _, _ => Option.none
  | _ => Option.none

/-- `datetime.strptime(value, "%Y-%m-%d %H:%M:%S")` as epoch seconds. -/
def parseStrptimeYmdHms (s : String) : Option Int :=
  match pySplitC s ' ' with
  | [ds, ts] =>
      match parseIsoDate ds, parseTimeHms ts with
      | Option.some day, Option.some sec => Option.some (day * 86400 + sec)
      | _, _ => Option.none
  | _ => Option.none

/-- `datetime.strptime(value, "%d/%m/%Y")` as an epoch day. -/
def parseStrptimeDmy (s : String) : Option Int :=
  match pySplitC s '/' with
  | [ds, ms, ys] =>
      if strLen ys = 4 then
        match parseNatW ds, parseNatW ms, parseNatW ys with
        | Option.some d, Option.some m, Option.some y =>
            if validDate (Int.ofNat y) (Int.ofNat m) (Int.ofNat d) then
              Option.some (daysFromCivil (Int.ofNat y) (Int.ofNat m) (Int.ofNat d))
            else Option.none
        | _, _, _ => Option.none
      else Option.none
  | _ => Option.none

/-- The `datetime.fromisoformat` fallback of `to_date_iso`, rendered back to
`"%Y-%m-%d"`. -/
def isoFallback (s : String) : Option String :=
  (parseIso s).map (fun t => fmtDate (t.fdiv 86400))

/-- `flatten_steps.to_date_iso` (the `Gestor_Neto_Contabilidade-main`
variant, with the `fromisoformat` fallback). -/
def toDateIsoMain (brDate : String) : Option String :=
  if brDate = "" then Option.none
  else if pyIn "T" brDate ∧ 10 ≤ strLen brDate then Option.some (pyTake brDate 10)
  else if pyIn " " brDate then
    match parseStrptimeYmdHms brDate with
    | Option.some t => Option.some (fmtDate (t.fdiv 86400))
    | Option.none => isoFallback brDate
  else if pyIn "/" brDate then
    match parseStrptimeDmy brDate with
    | Option.some day => Option.some (fmtDate day)
    | Option.none => isoFallback brDate
  else if 10 ≤ strLen brDate then Option.some (pyTake brDate 10)
  else Option.none

/-- `pipeline._to_date_iso` (no length guard on the `T` branch and no
`fromisoformat` fallback). -/
def toDateIsoPipe (value : String) : Option String :=
  if value = "" then Option.none
  else if pyIn "T" value then Option.some (pyTake value 10)
  else if pyIn " " value then
    (parseStrptimeYmdHms value).map (fun t => fmtDate (t.fdiv 86400))
  else if pyIn "/" value then (parseStrptimeDmy value).map fmtDate
  else if 10 ≤ strLen value then Option.some (pyTake value 10)
  else Option.none

/-- `to_date_iso` applied to a raw payload value (Python `None` gives `None`;
an integer would raise inside `to_date_iso` and is outside the embedded
domain). -/
def toDateIsoVal (v : PyVal) : Option String :=
  match v with
  | .str s => toDateIsoMain s
  | _ => Option.none

/-- `flatten_steps.competence_from_date`. -/
def competenceFromDate (dateIso : Option String) : Option String :=
  match dateIso with
  | Option.none => Option.none
  | Option.some s => if s = "" then Option.none else Option.some (pyTake s 7)

/-- The event record produced by `flatten_proc` for a matched step. -/
structure PEvent where
  source : String
  categoria : String
  procId : String
  empresa : PyVal
  cnpj : PyVal
  regime : PyVal
  subtipo : PyVal
  status : PyVal
  responsavel : PyVal
  prazo : Option String
  dataEvento : Option String
  competencia : Option String
  passoStatus : PyVal
  bloqueante : Bool
  deriving DecidableEq, Repr

/-- Process-level context threaded through the `walk` closure of
`flatten_proc`. -/
structure ProcCtx where
  rules : List Rule
  pid : String
  emp : PyVal
  cnpj : PyVal
  regime : PyVal
  dataEvento : Option String
  deriving Repr

/-- The per-node body of `flatten_proc.walk`: extract the label (extended
with the delivery name when present), match the rules, and build the event. -/
def stepEventMain (ctx : ProcCtx) (nome descricao : String) (statusPasso : PyVal)
    (autom : Option AutomObj) : Option PEvent :=
  let nomeV := sOr nome descricao
  let parts :=
    match autom with
    | Option.none => (PyVal.none, "", PyVal.none, nomeV)
    | Option.some a =>
        match a.entrega with
        | Option.none => (a.bloqueante, "", PyVal.none, nomeV)
        | Option.some ent =>
            let prazoS := sOr ent.prazo ent.entregaPrazo
            let chk := if ent.nome ≠ "" then nomeV ++ " | " ++ ent.nome else nomeV
            (a.bloqueante, prazoS, ent.responsavel, chk)
  match matchRule parts.2.2.2 ctx.rules with
  | Option.none => Option.none
  | Option.some rule =>
      let prazoIso := toDateIsoMain parts.2.1
      let comp :=
        if optTruthy prazoIso then competenceFromDate prazoIso
        else if optTruthy ctx.dataEvento then competenceFromDate ctx.dataEvento
        else Option.none
      Option.some
        { source := "api", categoria := "process_step", procId := ctx.pid,
          empresa := ctx.emp, cnpj := ctx.cnpj, regime := ctx.regime,
          subtipo := rule.subtipo, status := rule.status,
          responsavel := parts.2.2.1, prazo := prazoIso,
          dataEvento := ctx.dataEvento, competencia := comp,
          passoStatus := statusPasso,
          bloqueante := pyLower (strOf parts.1) = "sim" }

mutual

/-- Visit one node of the step tree (pre-order). -/
def flatOneMain (ctx : ProcCtx) : Step → List PEvent
  | .node nome desc status autom children =>
      (match stepEventMain ctx nome desc status autom with
       | Option.some e => [e]
       | Option.none => []) ++ flatManyMain ctx children

/-- Visit a list of sibling nodes in order. -/
def flatManyMain (ctx : ProcCtx) : List Step → List PEvent
  | [] => []
  | s :: ss => flatOneMain ctx s ++ flatManyMain ctx ss

end

/-- `flatten_steps.flatten_proc`: process-level field extraction plus the
recursive walk over the (typed) `ProcPassos` tree. -/
def flattenProc (proc : Payload) (passos : List Step) (rules : List Rule) :
    List PEvent :=
  let pid := strOf (pOr (pget proc "ProcID") (pOr (pget proc "ProcId") (.str "")))
  let emp := pOr (pget proc "EmpNome") (pOr (pget proc "Empresa") (pget proc "ProcEmpresaNome"))
  let cnpj := pOr (pget proc "EmpCNPJ") (pOr (pget proc "CNPJ") (pget proc "ProcEmpresaCNPJ"))
  let regime := pOr (pget proc "ProcDepartamento") (pOr (pget proc "Departamento") (.str ""))
  let dataEvento := toDateIsoVal (pOr (pget proc "ProcConclusao") (pget proc "ProcInicio"))
  flatManyMain ⟨rules, pid, emp, cnpj, regime, dataEvento⟩ passos

/-! ## Delivery → event conversion (`flatten_steps.delivery_events`) -/

/-- The event dict produced by `delivery_events` (the optional `atraso` key is
`none` when the key is not set). -/
structure DEvent where
  source : String
  categoria : String
  procId : PyVal
  empresa : PyVal
  cnpj : PyVal
  subtipo : PyVal
  status : String
  prazo : Option String
  entrega : Option String
  competencia : PyVal
  responsavel : PyVal
  atraso : Option (Option String)
  deriving DecidableEq, Repr

/-- The status inference of `delivery_events` (delivered ⇒ late ⇒ exempt ⇒
pending). -/
def statusGestorDelivery (entregaRaw : PyVal) (statusText : String) (atrasoRaw : PyVal) :
    String :=
  if entregaRaw.truthy then "Entregue"
  else if pyIn "atras" statusText ∨ atrasoRaw.truthy then "Atrasada"
  else if pyIn "disp" statusText then "Dispensada"
  else if pyIn "pend" statusText then "Pendente"
  else "Pendente"

/-- `flatten_steps.delivery_events` on one delivery dict. -/
def deliveryEventGestor (d : Payload) : DEvent :=
  let empresa := pOr (pget d "Empresa") (pOr (pget d "EmpNome") (pget d "empresa"))
  let cnpj := pOr (pget d "CNPJ") (pOr (pget d "EmpCNPJ") (pget d "cnpj"))
  let procId := pOr (pget d "ProcID") (pget d "proc_id")
  let subtipo := pOr (pget d "Obrigacao")
    (pOr (pget d "Obligation") (pOr (pget d "Descricao") (pget d "Nome")))
  let prazoRaw := pOr (pget d "EntDtPrazo") (pget d "Prazo")
  let entregaRaw := pOr (pget d "EntDtEntrega") (pget d "Entrega")
  let atrasoRaw := pget d "EntDtAtraso"
  let compRaw := pOr (pget d "Competencia") (pget d "competencia")
  let responsavel := pOr (pget d "Responsavel") (pget d "EntResponsavel")
  let statusText := pyLower (strOf (pOr (pget d "EntStatus")
    (pOr (pget d "Status") (pOr (pget d "status") (.str "")))))
  let entregaIso := toDateIsoVal entregaRaw
  { source := "api", categoria := "obrigacao", procId := procId,
    empresa := empresa, cnpj := cnpj, subtipo := subtipo,
    status := statusGestorDelivery entregaRaw statusText atrasoRaw,
    prazo := toDateIsoVal prazoRaw, entrega := entregaIso,
    competencia := pOr compRaw (optToVal (competenceFromDate (toDateIsoVal prazoRaw))),
    responsavel := responsavel,
    atraso := if atrasoRaw.truthy ∧ ¬ optTruthy entregaIso
      then Option.some (toDateIsoVal atrasoRaw) else Option.none }

/-- `delivery_events` over a list of delivery dicts. -/
def deliveryEventsGestor (ds : List Payload) : List DEvent := ds.map deliveryEventGestor

/-! ## Alert engine (`scripts/build_processes_kpis_alerts.py`, lines 222-295)

This variant derives the SN / REINF deadline alerts from the aggregated
*process* records (built by `build_processes`), not from individual events;
the events list feeds only the blocking alerts.  The aggregated process dict
always carries the keys read here, so it is modelled as a structure (the
`kpis` sub-dict is collapsed to the one key this function reads). -/

/-- The aggregated process record consumed by `build_alerts`. -/
structure ProcRec where
  procId : PyVal
  empresa : PyVal
  competencia : PyVal
  conclusao : PyVal
  kpiEfdReinf : PyVal
  deriving DecidableEq, Repr

/-- `config['deadlines']` / `config['warning_days']`. -/
structure AlertConfig where
  snDay : Int
  reinfDay : Int
  warnSn : Int
  warnReinf : Int
  deriving DecidableEq, Repr

/-- One deadline-risk alert entry. -/
structure RiskAlert where
  procId : PyVal
  empresa : PyVal
  competencia : String
  prazo : String
  dias : Int
  deriving DecidableEq, Repr

/-- One blocking-step alert entry. -/
structure BlockAlert where
  procId : PyVal
  passo : PyVal
  responsavel : PyVal
  prazo : PyVal
  deriving DecidableEq, Repr

/-- Output of `build_alerts`. -/
structure AlertsOut where
  snEmRisco : List RiskAlert
  reinfEmRisco : List RiskAlert
  bloqueantes : List BlockAlert
  naoMapeadosApi : List Payload
  divergencias : List Payload
  deriving DecidableEq, Repr

/-- `ano, mes = map(int, comp.split('-'))`. -/
def parseComp (s : String) : Option (Int × Int) :=
  match pySplitC s '-' with
  | [a, b] =>
      match strToInt a, strToInt b with
      | Option.some y, Option.some m => Option.some (y, m)
      | _, _ => Option.none
  | _ => Option.none

/-- The SN deadline entry for one process (appended when the due date lies in
the warning window). -/
def snEntry (cfg : AlertConfig) (hoje : Int) (p : ProcRec) (comp : String)
    (y m : Int) : Option RiskAlert :=
  if 0 ≤ daysFromCivil y m cfg.snDay - hoje ∧
      daysFromCivil y m cfg.snDay - hoje ≤ cfg.warnSn then
    Option.some ⟨p.procId, p.empresa, comp, fmtDate (daysFromCivil y m cfg.snDay),
      daysFromCivil y m cfg.snDay - hoje⟩
  else Option.none

/-- The REINF deadline entry for one process (requires the `efd_reinf` KPI to
be "Obrigatória"). -/
def reinfEntry (cfg : AlertConfig) (hoje : Int) (p : ProcRec) (comp : String)
    (y m : Int) : Option RiskAlert :=
  if p.kpiEfdReinf = .str "Obrigatória" ∧
      0 ≤ daysFromCivil y m cfg.reinfDay - hoje ∧
      daysFromCivil y m cfg.reinfDay - hoje ≤ cfg.warnReinf then
    Option.some ⟨p.procId, p.empresa, comp, fmtDate (daysFromCivil y m cfg.reinfDay),
      daysFromCivil y m cfg.reinfDay - hoje⟩
  else Option.none

/-- The dated part of the loop body once the competency has parsed: an
invalid SN date (`datetime` raising) drops both entries, an invalid REINF
date drops only the REINF entry (the SN append already happened). -/
def procAlertsYm (cfg : AlertConfig) (hoje : Int) (p : ProcRec) (comp : String)
    (y m : Int) : Option RiskAlert × Option RiskAlert :=
  if validDate y m cfg.snDay = true then
    (if validDate y m cfg.reinfDay = true then
      (snEntry cfg hoje p comp y m, reinfEntry cfg hoje p comp y m)
    else (snEntry cfg hoje p comp y m, Option.none))
  else (Option.none, Option.none)

/-- The loop body for a string competency. -/
def procAlertsBody (cfg : AlertConfig) (hoje : Int) (p : ProcRec) (comp : String) :
    Option RiskAlert × Option RiskAlert :=
  if comp = "" ∨ p.conclusao.truthy = true then (Option.none, Option.none)
  else
    match parseComp comp with
    | Option.none => (Option.none, Option.none)
    | Option.some (ano, mes) => procAlertsYm cfg hoje p comp ano mes

/-- The per-process body of the `for proc in processes` loop: the optional SN
entry and the optional REINF entry.  A failure anywhere in the `try` block
(bad competency, invalid SN date) drops both; a failure after the SN append
(invalid REINF date) keeps the SN entry; a non-string competency is either
falsy (skipped) or raises on `.split` (caught and skipped). -/
def procAlerts (cfg : AlertConfig) (hoje : Int) (proc : ProcRec) :
    Option RiskAlert × Option RiskAlert :=
  match proc.competencia with
  | .str comp => procAlertsBody cfg hoje proc comp
  | _ => (Option.none, Option.none)

/-- `build_processes_kpis_alerts.build_alerts` (the cited variant).  The
`temp_alerts.json` contents are passed in as the two trailing arguments. -/
def buildAlertsSrc (events : List Payload) (processes : List ProcRec)
    (cfg : AlertConfig) (hoje : Int) (tempDiv tempNao : List Payload) : AlertsOut :=
  { snEmRisco := processes.filterMap (fun p => (procAlerts cfg hoje p).1),
    reinfEmRisco := processes.filterMap (fun p => (procAlerts cfg hoje p).2),
    bloqueantes := events.filterMap (fun e =>
      if (pget e "bloqueante").truthy ∧ pget e "passo_status" ≠ .str "OK" then
        Option.some ⟨pget e "proc_id", pget e "categoria",
          pget e "responsavel", pget e "prazo"⟩
      else Option.none),
    naoMapeadosApi := tempNao,
    divergencias := tempDiv }

/-- The inclusion criterion C7 states, written from the spec: effective due
date = explicit per-event due date when present, otherwise the configured
due-day inside the event's competency month; include iff
`0 ≤ (due − today).days ≤ riskWindow`. -/
def specC7Included (explicitDue : Option Int) (compYear compMonth : Int)
    (dueDay window hoje : Int) : Bool :=
  let due := match explicitDue with
    | Option.some d => d
    | Option.none => daysFromCivil compYear compMonth dueDay
  0 ≤ due - hoje ∧ due - hoje ≤ window

/-- Lexicographic string comparison (kernel-reducible; agrees with ISO date
order on equal-length date strings). -/
def strLe : List Char → List Char → Bool
  | [], _ => true
  | _ :: _, [] => false
  | a :: as, b :: bs =>
      if a.toNat < b.toNat then true
      else if b.toNat < a.toNat then false
      else strLe as bs

/-- The ordering C8 states, written from the spec: sorted ascending by the
due-date field. -/
def specSortedByPrazo (l : List RiskAlert) : Prop :=
  l.Pairwise (fun a b => strLe a.prazo.toList b.prazo.toList = true)

/-! ## Persistence / upsert layer (`scripts/db.py`)

Sessions become explicit `DB` states; timestamps are epoch seconds; each
upsert call is atomic (its flush either commits the whole change or fails
with no change, matching the spec's "each upsert call is atomic with respect
to its own key").  SQL `NULL` semantics follow SQLite: `= value` never
matches `NULL`, `== None` is `IS NULL`, and `UNIQUE` constraints exempt rows
with a `NULL` component. -/

/-- Python `a or b` on `Optional[int]` (both `None` and `0` are falsy). -/
def pyOrIntO (a b : Option Int) : Option Int :=
  match a with
  | Option.some n => if n = 0 then b else Option.some n
  | Option.none => b

/-- `parse_datetime(...) or old` (a parsed datetime is always truthy). -/
def orKeep (v old : Option Int) : Option Int :=
  match v with
  | Option.some t => Option.some t
  | Option.none => old

/-- A row of the `companies` table. -/
structure CompanyRow where
  id : Nat
  idAcessorias : Option Int
  cnpj : String
  nome : String
  nomeFantasia : PyVal
  email : PyVal
  telefone : PyVal
  cidade : PyVal
  uf : Option String
  dados : Payload
  deriving DecidableEq, Repr

/-- A row of the `deliveries` table. -/
structure DeliveryRow where
  id : Nat
  idAcessorias : Option Int
  empresaId : Nat
  competencia : Option String
  tipo : PyVal
  situacao : PyVal
  dtEvento : Option Int
  dtPrazo : Option Int
  dtEntrega : Option Int
  responsavel : PyVal
  payload : Payload
  deriving DecidableEq, Repr

/-- A parsed Python float literal: scaled mantissa and decimal places.  Only
determinism matters to the embedded claims, not float rounding. -/
def FloatLit := Int × Nat

instance : DecidableEq FloatLit := inferInstanceAs (DecidableEq (Int × Nat))

instance : Repr FloatLit := inferInstanceAs (Repr (Int × Nat))

/-- A row of the `processes` table. -/
structure ProcessRow where
  id : Nat
  idAcessorias : Int
  empresaId : Nat
  titulo : PyVal
  status : PyVal
  departamento : PyVal
  dtInicio : Option Int
  dtPrevConclusao : Option Int
  dtConclusao : Option Int
  gestor : PyVal
  progresso : Option FloatLit
  prioridade : PyVal
  ultimoEvento : Option Int
  raw : Payload
  deriving DecidableEq, Repr

/-- The persistence store. -/
structure DB where
  companies : List CompanyRow
  deliveries : List DeliveryRow
  processes : List ProcessRow
  nextCompanyId : Nat
  nextDeliveryId : Nat
  nextProcessId : Nat
  deriving DecidableEq, Repr

/-- The empty store. -/
def DB.empty : DB := ⟨[], [], [], 1, 1, 1⟩

/-- SQLAlchemy `scalar_one_or_none`: `none` for no match, the row for one
match, `MultipleResultsFound` otherwise. -/
def scalarOneOrNone (l : List α) (f : α → Bool) : Except String (Option α) :=
  match l.filter f with
  | [] => .ok Option.none
  | [a] => .ok (Option.some a)
  | _ :: _ :: _ => .error "MultipleResultsFound"

/-- All elements pairwise distinct (used by the `UNIQUE` checks). -/
def distinctB [DecidableEq α] : List α → Bool
  | [] => true
  | x :: xs => !(decide (x ∈ xs)) && distinctB xs

/-- Replace the row with a given primary key. -/
def replaceRow (l : List α) (idOf : α → Nat) (i : Nat) (r : α) : List α :=
  l.map (fun x => if idOf x = i then r else x)

/-- Constraints flushed for `companies`: primary key, `cnpj` unique,
`id_acessorias` unique (`NULL`s exempt). -/
def companiesOk (l : List CompanyRow) : Bool :=
  distinctB (l.map (·.id)) && distinctB (l.map (·.cnpj)) &&
    distinctB (l.filterMap (·.idAcessorias))

/-- The `uq_delivery_empresa_tipo_comp` key of a row, `none` when a component
is `NULL` (such rows are exempt from the constraint). -/
def tripleKeyOf (r : DeliveryRow) : Option (Nat × PyVal × String) :=
  match r.competencia with
  | Option.none => Option.none
  | Option.some c =>
      match r.tipo with
      | .none => Option.none
      | t => Option.some (r.empresaId, t, c)

/-- Constraints flushed for `deliveries`. -/
def deliveriesOk (l : List DeliveryRow) : Bool :=
  distinctB (l.map (·.id)) && distinctB (l.filterMap (·.idAcessorias)) &&
    distinctB (l.filterMap tripleKeyOf)

/-- Constraints flushed for `processes`. -/
def processesOk (l : List ProcessRow) : Bool :=
  distinctB (l.map (·.id)) && distinctB (l.map (·.idAcessorias))

/-- The `EmpresaID or EmpID or id_acessorias or id` chain of
`upsert_company`, through `_as_int`. -/
def companyIdAcChain (p : Payload) : Option Int :=
  asInt (pOr (pget p "EmpresaID") (pOr (pget p "EmpID")
    (pOr (pget p "id_acessorias") (pget p "id"))))

/-- The CNPJ chain of `upsert_company`, through `normalize_cnpj`. -/
def companyCnpjChain (p : Payload) : Option String :=
  normalizeCnpj (pOr (pget p "CNPJ") (pOr (pget p "EmpCNPJ")
    (pOr (pget p "cnpj") (pget p "Documento"))))

/-- `company.nome = str(p.get("EmpNome") or p.get("Nome") or company.nome or
"").strip()`. -/
def companyNomeVal (p : Payload) (old : String) : String :=
  pyStrip (strOf (pOr (pget p "EmpNome") (pOr (pget p "Nome")
    (pOr (.str old) (.str "")))))

/-- `(p.get("UF") or p.get("estado") or company.uf or "").upper()[:2] or
None`; an integer in the chain makes Python raise on `.upper()`. -/
def companyUfVal (p : Payload) (old : Option String) : Except String (Option String) :=
  match pOr (pget p "UF") (pOr (pget p "estado") (pOr (optToVal old) (.str ""))) with
  | .str s =>
      let u := pyTake (pyUpper s) 2
      .ok (if u = "" then Option.none else Option.some u)
  | .int _ => .error "AttributeError: int has no attribute upper"
  | .none => .ok Option.none

/-- The mutable-field refresh block of `upsert_company`. -/
def applyCompany (c : CompanyRow) (p : Payload) (idAc : Option Int) :
    Except String CompanyRow :=
  match companyUfVal p c.uf with
  | .error e => .error e
  | .ok uf1 => .ok
      { c with
        idAcessorias := pyOrIntO idAc c.idAcessorias,
        nome := companyNomeVal p c.nome,
        nomeFantasia := pOr (pget p "NomeFantasia") (pOr (pget p "fantasia") c.nomeFantasia),
        email := pOr (pget p "Email") (pOr (pget p "email") c.email),
        telefone := pOr (pget p "Telefone") (pOr (pget p "telefone") c.telefone),
        cidade := pOr (pget p "Cidade") (pOr (pget p "cidade") c.cidade),
        uf := uf1,
        dados := p }

/-- `Company(cnpj=cnpj, nome=str(... or ""))`: the freshly inserted row. -/
def freshCompany (nid : Nat) (cnpj : String) (p : Payload) : CompanyRow :=
  { id := nid, idAcessorias := Option.none, cnpj := cnpj,
    nome := strOf (pOr (pget p "EmpNome") (pOr (pget p "Nome") (.str ""))),
    nomeFantasia := .none, email := .none, telefone := .none, cidade := .none,
    uf := Option.none, dados := [] }

/-- The lookup of `upsert_company`: by `id_acessorias` when given, then by
CNPJ. -/
def lookupCompany (l : List CompanyRow) (idAc : Option Int) (cnpj : String) :
    Except String (Option CompanyRow) :=
  match idAc with
  | Option.some i =>
      match scalarOneOrNone l (fun c => c.idAcessorias == Option.some i) with
      | .error e => .error e
      | .ok (Option.some c) => .ok (Option.some c)
      | .ok Option.none => scalarOneOrNone l (fun c => c.cnpj == cnpj)
  | Option.none => scalarOneOrNone l (fun c => c.cnpj == cnpj)

/-- `db.upsert_company`, returning the new store and the company's primary
key. -/
def upsertCompany (db : DB) (p : Payload) : Except String (DB × Nat) :=
  match companyCnpjChain p with
  | Option.none => .error "CNPJ obrigatório para company"
  | Option.some cnpj =>
      let idAc := companyIdAcChain p
      match lookupCompany db.companies idAc cnpj with
      | .error e => .error e
      | .ok found =>
          let base := match found with
            | Option.some c => c
            | Option.none => freshCompany db.nextCompanyId cnpj p
          match applyCompany base p idAc with
          | .error e => .error e
          | .ok r1 =>
              let newList := match found with
                | Option.some c => replaceRow db.companies (·.id) c.id r1
                | Option.none => db.companies ++ [r1]
              if companiesOk newList then
                .ok
                  ({ db with
                      companies := newList,
                      nextCompanyId := (match found with
                        | Option.some _ => db.nextCompanyId
                        | Option.none => db.nextCompanyId + 1) },
                    r1.id)
              else .error "IntegrityError"

/-- The `DeliveryID or EntID or id_acessorias or id` chain of
`upsert_delivery`. -/
def deliveryIdChain (p : Payload) : Option Int :=
  asInt (pOr (pget p "DeliveryID") (pOr (pget p "EntID")
    (pOr (pget p "id_acessorias") (pget p "id"))))

/-- `(p.get("Competencia") or p.get("competencia") or "").strip() or None`. -/
def deliveryCompetencia (p : Payload) : Except String (Option String) :=
  match pOr (pget p "Competencia") (pOr (pget p "competencia") (.str "")) with
  | .str s =>
      let t := pyStrip s
      .ok (if t = "" then Option.none else Option.some t)
  | .int _ => .error "AttributeError: int has no attribute strip"
  | .none => .ok Option.none

/-- `tipo = p.get("Obrigacao") or p.get("tipo") or p.get("Nome")`. -/
def deliveryTipo (p : Payload) : PyVal :=
  pOr (pget p "Obrigacao") (pOr (pget p "tipo") (pget p "Nome"))

/-- The lookup of `upsert_delivery`: by `id_acessorias` when given, then by
the `(empresa_id, tipo, competencia)` triple.  Comparison follows SQL:
`tipo == ""` does not match a `NULL` column, while `competencia == None`
renders as `IS NULL`. -/
def lookupDelivery (l : List DeliveryRow) (dId : Option Int) (empId : Nat)
    (tipo : PyVal) (comp : Option String) : Except String (Option DeliveryRow) :=
  let tripleMatch := fun (r : DeliveryRow) =>
    r.empresaId == empId && r.tipo == tipo && r.competencia == comp
  match dId with
  | Option.some i =>
      match scalarOneOrNone l (fun r => r.idAcessorias == Option.some i) with
      | .error e => .error e
      | .ok (Option.some r) => .ok (Option.some r)
      | .ok Option.none => scalarOneOrNone l tripleMatch
  | Option.none => scalarOneOrNone l tripleMatch

/-- The mutable-field refresh block of `upsert_delivery`. -/
def applyDelivery (r : DeliveryRow) (p : Payload) (dId : Option Int)
    (empId : Nat) (tipo : PyVal) (comp : Option String) : DeliveryRow :=
  { r with
    idAcessorias := pyOrIntO dId r.idAcessorias,
    empresaId := empId,
    tipo := pOr tipo r.tipo,
    situacao := pOr (pget p "EntStatus")
      (pOr (pget p "situacao") (pOr (pget p "Status") r.situacao)),
    competencia := match comp with
      | Option.some c => Option.some c
      | Option.none => r.competencia,
    dtEvento := orKeep (parseDatetime (pOr (pget p "EntDtEvento") (pget p "dt_evento"))) r.dtEvento,
    dtPrazo := orKeep (parseDatetime (pOr (pget p "EntDtPrazo") (pget p "prazo"))) r.dtPrazo,
    dtEntrega := orKeep (parseDatetime (pOr (pget p "EntDtEntrega") (pget p "entrega"))) r.dtEntrega,
    responsavel := pOr (pget p "Responsavel") (pOr (pget p "responsavel") r.responsavel),
    payload := p }

/-- `Delivery(empresa_id=company.id, id_acessorias=delivery_id)`. -/
def freshDelivery (nid : Nat) (empId : Nat) (dId : Option Int) : DeliveryRow :=
  { id := nid, idAcessorias := dId, empresaId := empId, competencia := Option.none,
    tipo := .none, situacao := .none, dtEvento := Option.none, dtPrazo := Option.none,
    dtEntrega := Option.none, responsavel := .none, payload := [] }

/-- `db.upsert_delivery`. -/
def upsertDelivery (db : DB) (p : Payload) : Except String (DB × Nat) :=
  match upsertCompany db p with
  | .error e => .error e
  | .ok (db1, cid) =>
      let dId := deliveryIdChain p
      match deliveryCompetencia p with
      | .error e => .error e
      | .ok comp =>
          let tipo := deliveryTipo p
          match lookupDelivery db1.deliveries dId cid tipo comp with
          | .error e => .error e
          | .ok found =>
              let base := match found with
                | Option.some r => r
                | Option.none => freshDelivery db1.nextDeliveryId cid dId
              let r1 := applyDelivery base p dId cid tipo comp
              let newList := match found with
                | Option.some r => replaceRow db1.deliveries (·.id) r.id r1
                | Option.none => db1.deliveries ++ [r1]
              if deliveriesOk newList then
                .ok
                  ({ db1 with
                      deliveries := newList,
                      nextDeliveryId := (match found with
                        | Option.some _ => db1.nextDeliveryId
                        | Option.none => db1.nextDeliveryId + 1) },
                    r1.id)
              else .error "IntegrityError"

/-- Parse a decimal float literal (`float(value)` for the literals this
pipeline sees); only determinism matters to the claims. -/
def parseDecimalLit (s : String) : Option FloatLit :=
  let core := fun (t : String) (sign : Int) =>
    match pySplitC t '.' with
    | [a] => (parseNatW a).map (fun n => ((sign * Int.ofNat n, 0) : FloatLit))
    | [a, b] =>
        match parseNatW a, parseNatW b with
        | Option.some n, Option.some f =>
            Option.some ((sign * Int.ofNat (n * 10 ^ b.length + f), b.length) : FloatLit)
        | _, _ => Option.none
    | _ => Option.none
  match s.toList with
  | '-' :: rest => core (String.mk rest) (-1)
  | _ => core s 1

/-- Python `float(v)` on a payload value, `none` on failure. -/
def pyFloat? (v : PyVal) : Option FloatLit :=
  match v with
  | .int n => Option.some (n, 0)
  | .str s => parseDecimalLit (pyStrip s)
  | .none => Option.none

/-- `float(p.get("ProcProgresso") or p.get("progresso")) if ... else
process.progresso`; an unparsable value raises `ValueError`. -/
def processProgresso (p : Payload) (old : Option FloatLit) :
    Except String (Option FloatLit) :=
  let v := pOr (pget p "ProcProgresso") (pget p "progresso")
  if v.truthy then
    match pyFloat? v with
    | Option.some f => .ok (Option.some f)
    | Option.none => .error "ValueError: could not convert to float"
  else .ok old

/-- The `ProcID or proc_id or id` chain of `upsert_process`. -/
def processIdChain (p : Payload) : Option Int :=
  asInt (pOr (pget p "ProcID") (pOr (pget p "proc_id") (pget p "id")))

/-- The mutable-field refresh block of `upsert_process`. -/
def applyProcess (r : ProcessRow) (p : Payload) (empId : Nat) :
    Except String ProcessRow :=
  match processProgresso p r.progresso with
  | .error e => .error e
  | .ok prog => .ok
      { r with
        empresaId := empId,
        titulo := pOr (pget p "ProcNome") (pOr (pget p "titulo") r.titulo),
        status := pOr (pget p "ProcStatus") (pOr (pget p "status") r.status),
        departamento := pOr (pget p "ProcDepartamento")
          (pOr (pget p "Departamento") r.departamento),
        dtInicio := orKeep (parseDatetime (pOr (pget p "ProcInicio") (pget p "inicio"))) r.dtInicio,
        dtPrevConclusao := orKeep (parseDatetime (pOr (pget p "ProcPrevisaoConclusao")
          (pget p "dt_prev_conclusao"))) r.dtPrevConclusao,
        dtConclusao := orKeep (parseDatetime (pOr (pget p "ProcConclusao")
          (pget p "conclusao"))) r.dtConclusao,
        ultimoEvento := orKeep (parseDatetime (pOr (pget p "DtLastDH")
          (pget p "ultimo_evento"))) r.ultimoEvento,
        gestor := pOr (pget p "ProcGestor") (pOr (pget p "GestorNome")
          (pOr (pget p "gestor") r.gestor)),
        progresso := prog,
        prioridade := pOr (pget p "ProcPrioridade") (pOr (pget p "prioridade") r.prioridade),
        raw := p }

/-- `Process(id_acessorias=proc_id, empresa_id=company.id)`. -/
def freshProcess (nid : Nat) (procId : Int) (empId : Nat) : ProcessRow :=
  { id := nid, idAcessorias := procId, empresaId := empId, titulo := .none,
    status := .none, departamento := .none, dtInicio := Option.none,
    dtPrevConclusao := Option.none, dtConclusao := Option.none, gestor := .none,
    progresso := Option.none, prioridade := .none, ultimoEvento := Option.none,
    raw := [] }

/-- `db.upsert_process`. -/
def upsertProcess (db : DB) (p : Payload) : Except String (DB × Nat) :=
  match processIdChain p with
  | Option.none => .error "ProcID obrigatório"
  | Option.some procId =>
      match upsertCompany db p with
      | .error e => .error e
      | .ok (db1, cid) =>
          match scalarOneOrNone db1.processes (fun r => r.idAcessorias == procId) with
          | .error e => .error e
          | .ok found =>
              let base := match found with
                | Option.some r => r
                | Option.none => freshProcess db1.nextProcessId procId cid
              match applyProcess base p cid with
              | .error e => .error e
              | .ok r1 =>
                  let newList := match found with
                    | Option.some r => replaceRow db1.processes (·.id) r.id r1
                    | Option.none => db1.processes ++ [r1]
                  if processesOk newList then
                    .ok
                      ({ db1 with
                          processes := newList,
                          nextProcessId := (match found with
                            | Option.some _ => db1.nextProcessId
                            | Option.none => db1.nextProcessId + 1) },
                        r1.id)
                  else .error "IntegrityError"

/-- `db.bulk_upsert_deliveries`: per-row failures are logged and skipped, the
batch continues. -/
def bulkUpsertDeliveries (db : DB) (rows : List Payload) : DB × Nat :=
  rows.foldl
    (fun acc row =>
      match upsertDelivery acc.1 row with
      | .ok (db2, _) => (db2, acc.2 + 1)
      | .error _ => acc)
    (db, 0)

/-! ## Pipeline delivery → event conversion (`pipeline._delivery_to_event`) -/

/-- `datetime.isoformat()` of a stored UTC timestamp. -/
def isoFormatUTC (t : Int) : String :=
  let day := t.fdiv 86400
  let rem := (t - day * 86400).toNat
  fmtDate day ++ "T" ++ padNum 2 (Int.ofNat (rem / 3600)) ++ ":" ++
    padNum 2 (Int.ofNat ((rem % 3600) / 60)) ++ ":" ++ padNum 2 (Int.ofNat (rem % 60)) ++
    "+00:00"

/-- `pipeline._to_date_iso` applied to a raw payload value. -/
def toDateIsoPipeVal (v : PyVal) : Option String :=
  match v with
  | .str s => toDateIsoPipe s
  | _ => Option.none

/-- An `Option` datetime column rendered as `x.isoformat() if x else None`. -/
def dtColToVal (o : Option Int) : PyVal :=
  match o with
  | Option.some t => .str (isoFormatUTC t)
  | Option.none => .none

/-- Python `str.title()` (ASCII). -/
def titleGo : Bool → List Char → List Char
  | _, [] => []
  | prevAlpha, c :: rest =>
      let isA := c.isAlpha
      (if isA then (if prevAlpha then lcChar c else ucChar c) else c) :: titleGo isA rest

/-- Python `s.title()`. -/
def pyTitle (s : String) : String := String.mk (titleGo false s.toList)

/-- The status inference of `pipeline._delivery_to_event` (delivered ⇒
exempt ⇒ late ⇒ mandatory ⇒ title-cased text / pending). -/
def statusPipeDelivery (entregaIso : Option String) (statusText : String)
    (atrasoIso : Option String) : String :=
  if optTruthy entregaIso then "Entregue"
  else if pyIn "disp" statusText then "Dispensada"
  else if pyIn "atras" statusText ∨ optTruthy atrasoIso then "Atrasada"
  else if pyIn "obrig" statusText then "Obrigatória"
  else if statusText ≠ "" then pyTitle statusText
  else "Pendente"

/-- The event dict produced by `pipeline._delivery_to_event`. -/
structure DEventPipe where
  source : String
  procId : PyVal
  empresa : PyVal
  cnpj : PyVal
  categoria : String
  subtipo : PyVal
  status : String
  responsavel : PyVal
  regime : PyVal
  competencia : PyVal
  dataEvento : Option String
  prazo : Option String
  entrega : Option String
  deriving DecidableEq, Repr

/-- `pipeline._delivery_to_event` on a stored delivery row and its (optional)
related company.  A non-string `tipo` column would make `.lower()` raise. -/
def deliveryToEventPipe (r : DeliveryRow) (company : Option CompanyRow) :
    Except String DEventPipe :=
  let p := r.payload
  let empresa := match company with
    | Option.some c => PyVal.str c.nome
    | Option.none => pget p "Empresa"
  let cnpj := match company with
    | Option.some c => PyVal.str c.cnpj
    | Option.none => pget p "CNPJ"
  let subtipo := pOr (pget p "Obrigacao")
    (pOr (pget p "Descricao") (pOr (pget p "Nome") r.tipo))
  let prazo := toDateIsoPipeVal (pOr (pget p "EntDtPrazo")
    (pOr (pget p "Prazo") (dtColToVal r.dtPrazo)))
  let entrega := toDateIsoPipeVal (pOr (pget p "EntDtEntrega") (dtColToVal r.dtEntrega))
  let atraso := toDateIsoPipeVal (pget p "EntDtAtraso")
  let statusText := pyLower (strOf (pOr (pget p "EntStatus")
    (pOr (pget p "Status") (pOr r.situacao (.str "")))))
  match pOr r.tipo (.str "") with
  | .int _ => .error "AttributeError: int has no attribute lower"
  | .none => .error "unreachable"
  | .str tipoS =>
      let catL := pyLower tipoS
      let categoria :=
        if pyIn "reinf" catL then "efd_reinf"
        else if pyIn "contrib" catL then "efd_contrib"
        else if pyIn "difal" catL then "difal"
        else if catL ≠ "" then catL else "outros"
      .ok
        { source := "delivery", procId := pget p "ProcID", empresa := empresa,
          cnpj := cnpj, categoria := categoria, subtipo := subtipo,
          status := statusPipeDelivery entrega statusText atraso,
          responsavel := pOr (pget p "Responsavel") r.responsavel,
          regime := pget p "Regime",
          competencia := pOr (pget p "Competencia")
            (pOr (optToVal r.competencia) (optToVal (competenceFromDate prazo))),
          dataEvento := toDateIsoPipeVal (pOr (pget p "EntDtEvento") (dtColToVal r.dtEvento)),
          prazo := prazo, entrega := entrega }

/-- The status priority C9 states, written from the spec: delivered ⇒ late
(text or late-date) ⇒ exempt ⇒ pending. -/
def specC9Status (delivered lateText lateDate exemptText : Bool) : String :=
  if delivered then "Entregue"
  else if lateText ∨ lateDate then "Atrasada"
  else if exemptText then "Dispensada"
  else "Pendente"

/-! ## Pipeline single-flight guard (`scripts/pipeline.py`, `app/api.py`)

`trigger_refresh` checks `PIPELINE_LOCK.locked()`; a run in progress holds the
lock for its whole duration (`run_pipeline` wraps everything in
`with PIPELINE_LOCK`).  The observable state is whether the lock is held and
how many runner threads have been started. -/

structure PipelineState where
  lockHeld : Bool
  runnersStarted : Nat
  deriving DecidableEq, Repr

/-- `pipeline.trigger_refresh`: refuse when the lock is held (no thread is
created), otherwise start one background runner. -/
def triggerRefresh (s : PipelineState) : Bool × PipelineState :=
  if s.lockHeld then (false, s)
  else (true, { s with runnersStarted := s.runnersStarted + 1 })

/-- `app/api.py refresh_endpoint`: HTTP status surfaced to the caller. -/
def refreshEndpoint (s : PipelineState) : Nat × PipelineState :=
  let r := triggerRefresh s
  (if r.1 then 202 else 409, r.2)

/-! ### Concrete instances for counterexamples and witnesses -/

def c9Row : DeliveryRow :=
  { id := 1, idAcessorias := Option.none, empresaId := 1, competencia := Option.none,
    tipo := .str "DCTF", situacao := .str "dispensada", dtEvento := Option.none,
    dtPrazo := Option.none, dtEntrega := Option.none, responsavel := .none,
    payload := [("EntDtAtraso", .str "2024-01-02")] }

def c6Proc : Payload := [("ProcID", .str "77"), ("EmpNome", .str "ACME")]

def c6Rule : Rule := ⟨"fechamento", .str "process", .str "fech", .str "Pendente"⟩

def c6Step : Step := .node "Fechamento mensal" "" (.str "OK") (Option.some ⟨.str "Sim", Option.none⟩) []

def c7Event : Payload :=
  [("categoria", .str "efd_reinf"), ("subtipo", .str "obrig"), ("proc_id", .str "P1"),
   ("prazo", .str "2024-09-15"), ("bloqueante", .none), ("passo_status", .none)]

def c7Proc : ProcRec := ⟨.str "P1", .str "ACME", .str "2024-06", .none, .str "Obrigatória"⟩

def c7Cfg : AlertConfig := ⟨20, 15, 3, 5⟩

def c8Proc1 : ProcRec := ⟨.str "A", .none, .str "2024-07", .none, .none⟩

def c8Proc2 : ProcRec := ⟨.str "B", .none, .str "2024-06", .none, .none⟩

def c8Cfg : AlertConfig := ⟨20, 15, 40, 5⟩

def fuseApiSample : Payload :=
  [("source", .str "api"), ("empresa", .str "X"), ("subtipo", .str "REINF"),
   ("status", .str "Pendente"), ("categoria", .str "obrigacao")]

def fuseMailSample : Payload :=
  [("source", .str "api"), ("empresa", .str "X"), ("subtipo", .str "REINF"),
   ("status", .str "Pendente"), ("categoria", .str "mail"),
   ("descricao", .str "Dispensa confirmada")]

/-! ## Concrete payloads and stores for the upsert claims -/

/-- A company payload used to witness upsert idempotence. -/
def pcWit : Payload := [("CNPJ", PyVal.str "11222333000181"), ("Nome", PyVal.str "ACME")]

def ppWit : Payload := [("ProcID", PyVal.int 7), ("CNPJ", PyVal.str "11222333000181"),
  ("ProcNome", PyVal.str "Abertura")]

def pdWit : Payload := [("CNPJ", PyVal.str "11222333000181"), ("Obrigacao", PyVal.str "DCTF"),
  ("Competencia", PyVal.str "2024-01"), ("EntStatus", PyVal.str "Pendente")]

def c1DupPayload : Payload := [("CNPJ", PyVal.str "11222333000181"),
  ("Nome", PyVal.str ""), ("Competencia", PyVal.str "2024-01")]

def c5Pay1 : Payload := [("CNPJ", PyVal.str "11222333000181"),
  ("Obrigacao", PyVal.str "DCTF"), ("Competencia", PyVal.str "2024-01"),
  ("EntStatus", PyVal.str "Pendente")]

def c5Pay2 : Payload := [("CNPJ", PyVal.str "11222333000181"),
  ("Obrigacao", PyVal.str "DCTF"), ("Competencia", PyVal.str "2024-01"),
  ("EntStatus", PyVal.str "Entregue")]

def c5NullPay1 : Payload := [("CNPJ", PyVal.str "11222333000181"),
  ("Nome", PyVal.str ""), ("Competencia", PyVal.str "2024-01"),
  ("EntStatus", PyVal.str "Pendente")]

def c5NullPay2 : Payload := [("CNPJ", PyVal.str "11222333000181"),
  ("Nome", PyVal.str ""), ("Competencia", PyVal.str "2024-01"),
  ("EntStatus", PyVal.str "Entregue")]

def upsertOnce (p : Payload) : DB :=
  match upsertDelivery DB.empty p with
  | .ok (d, _) => d
  | .error _ => DB.empty

def upsertTwice (p : Payload) : DB :=
  match upsertDelivery (upsertOnce p) p with
  | .ok (d, _) => d
  | .error _ => upsertOnce p

def dbC1 : DB :=
  match upsertCompany DB.empty pcWit with
  | .ok (d, _) => d
  | .error _ => DB.empty

def dbP1 : DB :=
  match upsertProcess DB.empty ppWit with
  | .ok (d, _) => d
  | .error _ => DB.empty

def dbD1 : DB :=
  match upsertDelivery DB.empty pdWit with
  | .ok (d, _) => d
  | .error _ => DB.empty

def tripleUniqueB (l : List DeliveryRow) : Bool := distinctB (l.filterMap tripleKeyOf)

/-! # Theorems -/

/-! ### General lemmas -/

theorem pOr_truthy {a : PyVal} (b : PyVal) (h : a.truthy = true) : pOr a b = a := by
  simp [pOr, h]

theorem pOr_falsy {a : PyVal} (b : PyVal) (h : a.truthy = false) : pOr a b = b := by
  simp [pOr, h]

theorem pOr_absorb (a b : PyVal) : pOr a (pOr a b) = pOr a b := by
  unfold pOr; by_cases h : a.truthy <;> simp [h]

theorem pOr_absorb3 (a b c : PyVal) :
    pOr a (pOr b (pOr a (pOr b c))) = pOr a (pOr b c) := by
  unfold pOr; by_cases ha : a.truthy <;> by_cases hb : b.truthy <;> simp [ha, hb]

theorem pOr_absorb4 (a b c d : PyVal) :
    pOr a (pOr b (pOr c (pOr a (pOr b (pOr c d))))) = pOr a (pOr b (pOr c d)) := by
  unfold pOr
  by_cases ha : a.truthy <;> by_cases hb : b.truthy <;> by_cases hc : c.truthy <;>
    simp [ha, hb, hc]

theorem pOr_str_empty (s : String) : pOr (.str s) (.str "") = .str s := by
  by_cases h : s = "" <;> simp [pOr, truthy, h]

theorem pyOrIntO_absorb (a b : Option Int) : pyOrIntO a (pyOrIntO a b) = pyOrIntO a b := by
  cases a with
  | none => rfl
  | some n =>
      by_cases h : n = 0 <;> simp [pyOrIntO, h]

theorem orKeep_absorb (v old : Option Int) : orKeep v (orKeep v old) = orKeep v old := by
  cases v <;> rfl

/-! ### Strip / upper idempotence -/

theorem length_dropWhile_le (p : Char → Bool) (l : List Char) :
    (l.dropWhile p).length ≤ l.length := by
  induction l with
  | nil => simp
  | cons x xs ih =>
      by_cases h : p x
      · rw [List.dropWhile_cons, if_pos h]
        exact Nat.le_trans ih (Nat.le_succ _)
      · rw [List.dropWhile_cons, if_neg h]

theorem dropWhile_dropWhile (p : Char → Bool) (l : List Char) :
    (l.dropWhile p).dropWhile p = l.dropWhile p := by
  induction l with
  | nil => rfl
  | cons x xs ih =>
      by_cases h : p x
      · simp [List.dropWhile_cons, h, ih]
      · simp [List.dropWhile_cons, h]

theorem dropWhile_prefix_of_self {p : Char → Bool} {l l2 : List Char}
    (hpre : l2 <+: l) (hl : l.dropWhile p = l) : l2.dropWhile p = l2 := by
  cases l with
  | nil =>
      have : l2 = [] := List.prefix_nil.mp hpre
      simp [this]
  | cons x xs =>
      have hx : p x = false := by
        by_cases h : p x
        · exfalso
          rw [List.dropWhile_cons, if_pos h] at hl
          have hlen := congrArg List.length hl
          have hle := length_dropWhile_le p xs
          simp at hlen
          omega
        · simpa using h
      cases l2 with
      | nil => rfl
      | cons y ys =>
          rcases hpre with ⟨t, ht⟩
          rw [List.cons_append] at ht
          have hy : y = x := (List.cons.injEq _ _ _ _ ▸ ht).1
          rw [List.dropWhile_cons, hy, hx]
          simp

theorem dropTrail_pref (l : List Char) : dropTrail l <+: l := by
  unfold dropTrail
  have h1 : l.reverse.dropWhile isPyWS <:+ l.reverse := List.dropWhile_suffix isPyWS
  have h2 := List.reverse_prefix.mpr h1
  simpa using h2

theorem dropLead_dropTrail_of_lead {l : List Char} (h : dropLead l = l) :
    dropLead (dropTrail l) = dropTrail l :=
  dropWhile_prefix_of_self (dropTrail_pref l) h

theorem dropTrail_dropTrail (l : List Char) : dropTrail (dropTrail l) = dropTrail l := by
  unfold dropTrail
  simp [dropWhile_dropWhile]

theorem stripL_idem (l : List Char) :
    dropTrail (dropLead (dropTrail (dropLead l))) = dropTrail (dropLead l) := by
  have h1 : dropLead (dropLead l) = dropLead l := dropWhile_dropWhile _ l
  have h2 : dropLead (dropTrail (dropLead l)) = dropTrail (dropLead l) :=
    dropLead_dropTrail_of_lead h1
  rw [h2, dropTrail_dropTrail]

theorem toList_mk (l : List Char) : (String.mk l).toList = l := rfl

theorem toList_eq_nil_iff (s : String) : s.toList = [] ↔ s = "" := by
  cases s with
  | mk data =>
      constructor
      · intro h
        have hd : data = [] := h
        rw [hd]
      · intro h
        have h2 : String.mk data = String.mk [] := h
        exact congrArg String.toList h2

theorem pyStrip_idem (s : String) : pyStrip (pyStrip s) = pyStrip s := by
  unfold pyStrip
  rw [toList_mk]
  rw [stripL_idem]

theorem toNat_ofNatAux (n : Nat) (h : n.isValidChar) : (Char.ofNatAux n h).toNat = n := rfl

theorem ucChar_idem (c : Char) : ucChar (ucChar c) = ucChar c := by
  unfold ucChar
  by_cases h : 97 ≤ c.toNat ∧ c.toNat ≤ 122
  · rw [dif_pos h, dif_neg]
    rw [toNat_ofNatAux]
    omega
  · rw [dif_neg h, dif_neg h]

theorem pyUpper_idem (s : String) : pyUpper (pyUpper s) = pyUpper s := by
  unfold pyUpper
  rw [toList_mk, List.map_map]
  have : ucChar ∘ ucChar = ucChar := funext ucChar_idem
  rw [this]

theorem pyUpper_take (s : String) (n : Nat) :
    pyUpper (pyTake s n) = pyTake (pyUpper s) n := by
  simp only [pyUpper, pyTake, toList_mk, List.map_take]

theorem pyTake_take (s : String) (n : Nat) : pyTake (pyTake s n) n = pyTake s n := by
  simp only [pyTake, toList_mk, List.take_take, Nat.min_self]

theorem pyUpper_empty_iff (s : String) : pyUpper s = "" ↔ s = "" := by
  unfold pyUpper
  rw [← toList_eq_nil_iff, toList_mk, List.map_eq_nil_iff, toList_eq_nil_iff]

theorem pyTake_empty_iff (s : String) (n : Nat) (hn : n ≠ 0) :
    pyTake s n = "" ↔ s = "" := by
  unfold pyTake
  rw [← toList_eq_nil_iff, toList_mk, List.take_eq_nil_iff, toList_eq_nil_iff]
  constructor
  · rintro (h | h)
    · exact absurd h hn
    · exact h
  · intro h; right; exact h

/-! ### C2: retry exhaustion -/

theorem reqLoop_all500 (resp : Nat → Attempt) (r : HttpResp)
    (hresp : ∀ n, resp n = .ok r) (h500 : r.status = 500) :
    ∀ (f a : Nat) (ls : Option Nat) (lt le : Option String),
      reqLoop resp a (f + 1) ls lt le =
        (.exhausted (Option.some 500) (pyTake (bodyExcerpt r.body) 200) le, f + 1) := by
  intro f
  induction f with
  | zero =>
      intro a ls lt le
      rw [reqLoop, hresp a]
      simp only [h500]
      norm_num
      constructor <;> simp [reqLoop]
  | succ g ih =>
      intro a ls lt le
      rw [reqLoop, hresp a]
      simp only [h500]
      norm_num
      rw [ih]
      exact ⟨rfl, rfl⟩

/-- C2: a server answering 500 on every attempt makes `_request` perform
exactly 7 attempts and fail with the exhausted-retries error carrying the
last observed status (500) and the body excerpt; no payload is returned. -/
theorem C2_retry_exhaustion (resp : Nat → Attempt) (r : HttpResp)
    (hresp : ∀ n, resp n = .ok r) (h500 : r.status = 500) :
    clientRequest resp =
      (.exhausted (Option.some 500) (pyTake (bodyExcerpt r.body) 200) Option.none, 7) := by
  unfold clientRequest MAX_RETRIES
  exact reqLoop_all500 resp r hresp h500 6 1 _ _ _

theorem C2_retry_exhaustion_witness :
    clientRequest (fun _ => .ok ⟨500, "internal error", Option.none, true, true⟩) =
      (.exhausted (Option.some 500) "internal error" Option.none, 7) := by
  have h := C2_retry_exhaustion (fun _ => .ok ⟨500, "internal error", Option.none, true, true⟩)
    ⟨500, "internal error", Option.none, true, true⟩ (fun n => rfl) rfl
  rw [h]
  rfl

/-! ### C3: watermark clamping -/

/-- C3 counterexample: with `now = 2024-06-12 12:00:00` and a persisted
timestamp `2024-06-11 06:00:00`, the deliveries watermark is
`2024-06-11 05:55:00`, which is older than `now − 1 day`; the spec formula
instead demands the clamp `now − 1 day`. -/
theorem C3_counterexample :
    computeDtLastDhDeliv (Option.some "2024-06-11T06:00:00") 1718193600 =
      "2024-06-11 05:55:00" ∧
    parseIso "2024-06-11T06:00:00" = Option.some 1718085600 ∧
    parseIso "2024-06-11 05:55:00" = Option.some 1718085300 ∧
    specClampedWatermark 1718085600 1718193600 = 1718107200 ∧
    (1718085300 : Int) < 1718107200 := by
  refine ⟨by decide, by decide, by decide, by decide, by decide⟩

/-- C3 amended: the deliveries watermark is `last − 5 min` clamped below at
midnight of the previous day (also the fallback when nothing parses), with no
upper clamp; the processes watermark subtracts 5 minutes with no clamping at
all. -/
theorem C3_amended (s : String) (t now : Int) (hp : parseIso s = Option.some t) :
    computeDtLastDhDeliv (Option.some s) now =
      fmtDateTime (max ((now.fdiv 86400 - 1) * 86400) (t - 300)) ∧
    computeDtLastDhApi (Option.some s) = Option.some (fmtDateTime (t - 300)) ∧
    computeDtLastDhDeliv Option.none now =
      fmtDateTime ((now.fdiv 86400 - 1) * 86400) := by
  have hs : s ≠ "" := by
    intro h
    rw [h] at hp
    have hnone : parseIso "" = Option.none := rfl
    rw [hnone] at hp
    exact Option.noConfusion hp
  have harg : (if t - 300 < (now.fdiv 86400 - 1) * 86400
      then (now.fdiv 86400 - 1) * 86400 else t - 300) =
      max ((now.fdiv 86400 - 1) * 86400) (t - 300) := by
    rcases lt_or_ge (t - 300) ((now.fdiv 86400 - 1) * 86400) with h | h
    · rw [if_pos h, max_eq_left (le_of_lt h)]
    · rw [if_neg (not_lt.mpr h), max_eq_right h]
  refine ⟨?_, ?_, rfl⟩
  · show (if s = "" then fmtDateTime ((now.fdiv 86400 - 1) * 86400)
      else match parseIso s with
        | Option.none => fmtDateTime ((now.fdiv 86400 - 1) * 86400)
        | Option.some u => fmtDateTime (if u - 300 < (now.fdiv 86400 - 1) * 86400
            then (now.fdiv 86400 - 1) * 86400 else u - 300)) = _
    rw [if_neg hs, hp]
    show fmtDateTime (if t - 300 < (now.fdiv 86400 - 1) * 86400
        then (now.fdiv 86400 - 1) * 86400 else t - 300) = _
    rw [harg]
  · show (if s = "" then Option.none
      else match parseIso s with
        | Option.none => Option.none
        | Option.some u => Option.some (fmtDateTime (u - 300))) = _
    rw [if_neg hs, hp]

theorem C3_amended_witness :
    computeDtLastDhDeliv (Option.some "2024-06-11T06:00:00") 1718193600 =
      fmtDateTime (max (((1718193600 : Int).fdiv 86400 - 1) * 86400) (1718085600 - 300)) ∧
    computeDtLastDhApi (Option.some "2024-06-11T06:00:00") =
      Option.some (fmtDateTime (1718085600 - 300)) ∧
    computeDtLastDhDeliv Option.none 1718193600 =
      fmtDateTime (((1718193600 : Int).fdiv 86400 - 1) * 86400) :=
  C3_amended "2024-06-11T06:00:00" 1718085600 1718193600 (by decide)

/-! ### C10: single-flight guard -/

/-- C10: while a run holds the pipeline lock, a second trigger returns the
failure value without starting any runner (nothing is queued), and the HTTP
endpoint surfaces it as 409. -/
theorem C10_single_flight (s : PipelineState) (h : s.lockHeld = true) :
    triggerRefresh s = (false, s) ∧ refreshEndpoint s = (409, s) := by
  unfold refreshEndpoint triggerRefresh
  rw [h]
  simp

theorem C10_single_flight_witness :
    triggerRefresh ⟨true, 0⟩ = (false, ⟨true, 0⟩) ∧
    refreshEndpoint ⟨true, 0⟩ = (409, ⟨true, 0⟩) :=
  C10_single_flight ⟨true, 0⟩ rfl

/-! ### C9: delivery status inference -/

/-- C9 counterexample: a delivery with status text `"dispensada"`, a late
date, and no delivered date is converted by `pipeline._delivery_to_event` to
status `"Dispensada"`, while the claimed priority (late before exempt) gives
`"Atrasada"`. -/
theorem C9_counterexample :
    (deliveryToEventPipe c9Row Option.none).toOption.map (fun e => e.status) =
      Option.some "Dispensada" ∧
    toDateIsoPipeVal (pget c9Row.payload "EntDtAtraso") = Option.some "2024-01-02" ∧
    pget c9Row.payload "EntDtEntrega" = .none ∧
    c9Row.dtEntrega = Option.none ∧
    pyIn "atras" "dispensada" = false ∧
    pyIn "disp" "dispensada" = true ∧
    specC9Status false false true true = "Atrasada" := by
  refine ⟨by decide, by decide, by decide, by decide, by decide, by decide, by decide⟩

/-- C9 amended: the `delivery_events` converter follows the claimed priority
exactly (delivered ⇒ late ⇒ exempt ⇒ pending); the `_delivery_to_event`
converter checks the exempt keyword before the late conditions. -/
theorem C9_amended :
    (∀ (entregaRaw : PyVal) (statusText : String) (atrasoRaw : PyVal),
      statusGestorDelivery entregaRaw statusText atrasoRaw =
        specC9Status entregaRaw.truthy (pyIn "atras" statusText) atrasoRaw.truthy
          (pyIn "disp" statusText)) ∧
    (∀ (entregaIso atrasoIso : Option String) (statusText : String),
      optTruthy entregaIso = false → pyIn "disp" statusText = true →
      statusPipeDelivery entregaIso statusText atrasoIso = "Dispensada") := by
  constructor
  · intro e st a
    simp only [statusGestorDelivery, specC9Status]
    split_ifs <;> rfl
  · intro e a st h1 h2
    simp [statusPipeDelivery, h1, h2]

theorem C9_amended_witness :
    statusGestorDelivery (PyVal.str "x") "dispensada" (PyVal.str "2024-01-02") =
      specC9Status (PyVal.str "x").truthy (pyIn "atras" "dispensada")
        (PyVal.str "2024-01-02").truthy (pyIn "disp" "dispensada") ∧
    statusPipeDelivery Option.none "dispensada" (Option.some "2024-01-02") = "Dispensada" :=
  ⟨C9_amended.1 (PyVal.str "x") "dispensada" (PyVal.str "2024-01-02"),
   C9_amended.2 Option.none (Option.some "2024-01-02") "dispensada" rfl (by decide)⟩

/-! ### C4: fusion conflict resolution -/

/-- C4: when a mail event's key collides with an entry already in the merged
map (in particular an API-seeded one), the entry is kept unchanged if both are
obligation-category events; otherwise the mail event replaces it exactly when
the override-keyword predicate holds, and exactly in that case one divergence
record preserving both versions is appended. -/
theorem C4_fusion_collision (api : List Payload) (e ex : Payload)
    (hex : (fuseSeed api).lookup (makeKey e) = Option.some ex) (hne : ex ≠ []) :
    ((pget ex "categoria" = .str "obrigacao" ∧ pget e "categoria" = .str "obrigacao") →
        fuse api [e] = ((fuseSeed api).map (fun kv => kv.2), [])) ∧
    (¬(pget ex "categoria" = .str "obrigacao" ∧ pget e "categoria" = .str "obrigacao") →
      preferEmail e = true →
        fuse api [e] = ((dictSet (fuseSeed api) (makeKey e) e).map (fun kv => kv.2),
          [⟨makeKey e, ex, e⟩])) ∧
    (¬(pget ex "categoria" = .str "obrigacao" ∧ pget e "categoria" = .str "obrigacao") →
      preferEmail e = false →
        fuse api [e] = ((fuseSeed api).map (fun kv => kv.2), [])) := by
  have hne2 : ex.isEmpty = false := by
    cases hxx : ex with
    | nil => exact absurd hxx hne
    | cons a t => rfl
  have hstep : ∀ st : FuseState, st.merged = fuseSeed api → st.divergences = [] →
      fuse api [e] = ((fuseStep st e).merged.map (fun kv => kv.2),
        (fuseStep st e).divergences) := by
    intro st h1 h2
    unfold fuse
    rw [List.foldl_cons, List.foldl_nil]
    have : (⟨fuseSeed api, []⟩ : FuseState) = st := by
      cases st
      simp_all
    rw [this]
  refine ⟨?_, ?_, ?_⟩
  · intro hboth
    rw [hstep ⟨fuseSeed api, []⟩ rfl rfl]
    unfold fuseStep
    simp only [hex, hne2]
    rw [if_neg (by simp [hne2]), if_pos hboth]
  · intro hnb hpref
    rw [hstep ⟨fuseSeed api, []⟩ rfl rfl]
    unfold fuseStep
    simp only [hex]
    rw [if_neg (by simp [hne2]), if_neg hnb, if_pos hpref]
    simp
  · intro hnb hpref
    rw [hstep ⟨fuseSeed api, []⟩ rfl rfl]
    unfold fuseStep
    simp only [hex]
    rw [if_neg (by simp [hne2]), if_neg hnb, if_neg (by simp [hpref])]

theorem C4_fusion_collision_witness :
    fuse [fuseApiSample] [fuseMailSample] =
      ((dictSet (fuseSeed [fuseApiSample]) (makeKey fuseMailSample) fuseMailSample).map
        (fun kv => kv.2),
       [⟨makeKey fuseMailSample, fuseApiSample, fuseMailSample⟩]) :=
  (C4_fusion_collision [fuseApiSample] fuseMailSample fuseApiSample
      (by decide) (by decide)).2.1 (by decide) (by decide)

/-! ### C6: blocking flag on flattened events -/

/-- C6 counterexample: a step with `Automacao.Bloqueante = "Sim"` and status
`"OK"`, matched by a rule, produces an event with `bloqueante = true` even
though its own status is `"OK"` — the claimed conjunction with
`status != "OK"` does not hold at event-production time. -/
theorem C6_counterexample :
    (flattenProc c6Proc [c6Step] [c6Rule]).map (fun e => (e.bloqueante, e.passoStatus)) =
      [(true, PyVal.str "OK")] := by decide

/-- C6 amended: a matched step's event has
`bloqueante = (str(automacao.Bloqueante).lower() == "sim")`, independent of
the step's status (which is carried verbatim in `passo_status`); the
conjunction with `status != "OK"` is applied downstream by the alert engine
when selecting blocking alerts. -/
theorem C6_amended :
    (∀ (ctx : ProcCtx) (nome descricao : String) (statusPasso : PyVal)
        (autom : Option AutomObj) (e : PEvent),
      stepEventMain ctx nome descricao statusPasso autom = Option.some e →
      e.bloqueante = decide (pyLower (strOf (match autom with
        | Option.some a => a.bloqueante
        | Option.none => PyVal.none)) = "sim") ∧ e.passoStatus = statusPasso) ∧
    (∀ (ev : Payload) (procs : List ProcRec) (cfg : AlertConfig) (hoje : Int)
        (td tn : List Payload),
      (buildAlertsSrc [ev] procs cfg hoje td tn).bloqueantes ≠ [] ↔
        ((pget ev "bloqueante").truthy = true ∧ pget ev "passo_status" ≠ .str "OK")) := by
  constructor
  · intro ctx nome descricao statusPasso autom e h
    cases autom with
    | none =>
        simp only [stepEventMain] at h
        cases hm : matchRule (sOr nome descricao) ctx.rules with
        | none => rw [hm] at h; exact Option.noConfusion h
        | some rule =>
            rw [hm] at h
            obtain rfl := Option.some.inj h
            exact ⟨rfl, rfl⟩
    | some a =>
        obtain ⟨bloq, ent⟩ := a
        cases ent with
        | none =>
            simp only [stepEventMain] at h
            cases hm : matchRule (sOr nome descricao) ctx.rules with
            | none => rw [hm] at h; exact Option.noConfusion h
            | some rule =>
                rw [hm] at h
                obtain rfl := Option.some.inj h
                exact ⟨rfl, rfl⟩
        | some entrega =>
            simp only [stepEventMain] at h
            cases hm : matchRule (if entrega.nome ≠ "" then
                sOr nome descricao ++ " | " ++ entrega.nome
              else sOr nome descricao) ctx.rules with
            | none => rw [hm] at h; exact Option.noConfusion h
            | some rule =>
                rw [hm] at h
                obtain rfl := Option.some.inj h
                exact ⟨rfl, rfl⟩
  · intro ev procs cfg hoje td tn
    unfold buildAlertsSrc
    simp only [List.filterMap_cons]
    by_cases hcond : (pget ev "bloqueante").truthy = true ∧ pget ev "passo_status" ≠ .str "OK"
    · simp [hcond]
    · simp only [if_neg hcond]
      simp only [List.filterMap_nil]
      constructor
      · intro hne
        exact absurd rfl hne
      · intro hc
        exact absurd hc hcond

theorem C6_amended_witness :
    ((flattenProc c6Proc [c6Step] [c6Rule]).head?.map
        (fun e => (e.bloqueante, e.passoStatus)) =
      Option.some (true, PyVal.str "OK")) ∧
    ((buildAlertsSrc [[("bloqueante", PyVal.str "Sim"), ("passo_status", PyVal.str "NOK")]]
        [] c7Cfg 0 [] []).bloqueantes ≠ []) := by
  constructor
  · decide
  · exact (C6_amended.2 [("bloqueante", PyVal.str "Sim"), ("passo_status", PyVal.str "NOK")]
      [] c7Cfg 0 [] []).mpr ⟨by decide, by decide⟩

/-! ### C7: deadline-risk inclusion criterion -/

theorem procAlerts_str {p : ProcRec} {comp : String} (cfg : AlertConfig) (hoje : Int)
    (h : p.competencia = .str comp) :
    procAlerts cfg hoje p = procAlertsBody cfg hoje p comp := by
  unfold procAlerts
  rw [h]

theorem procAlerts_notStr {p : ProcRec} (cfg : AlertConfig) (hoje : Int)
    (h : ∀ s, p.competencia ≠ .str s) :
    procAlerts cfg hoje p = (Option.none, Option.none) := by
  unfold procAlerts
  cases hv : p.competencia with
  | none => rfl
  | int n => rfl
  | str s => exact absurd hv (h s)

/-- C7 counterexample: an open `efd_reinf` event with an explicit per-event
due date far outside the risk window still yields a REINF alert (for its
process), because the cited alert engine derives the due date from the
process competency month alone and never reads the event's own due date. -/
theorem C7_counterexample :
    (buildAlertsSrc [c7Event] [c7Proc] c7Cfg 19886 [] []).reinfEmRisco =
      [⟨.str "P1", .str "ACME", "2024-06", "2024-06-15", 3⟩] ∧
    pget c7Event "prazo" = .str "2024-09-15" ∧
    parseIsoDate "2024-09-15" = Option.some (daysFromCivil 2024 9 15) ∧
    specC7Included (Option.some (daysFromCivil 2024 9 15)) 2024 6 15 5 19886 = false ∧
    daysFromCivil 2024 6 12 = 19886 := by
  refine ⟨by decide, by decide, by decide, by decide, by decide⟩

/-- C7 amended: the cited engine alerts per aggregated process, not per
event: a process yields a REINF alert iff its competency parses, it has no
conclusion, the SN due date (computed first) is constructible, its
`efd_reinf` KPI is "Obrigatória", and the competency-month REINF due date
lies in the risk window; per-event explicit due dates are never consulted. -/
theorem C7_amended (events : List Payload) (p : ProcRec) (cfg : AlertConfig)
    (hoje : Int) (td tn : List Payload) :
    (buildAlertsSrc events [p] cfg hoje td tn).reinfEmRisco ≠ [] ↔
      ∃ comp y m, p.competencia = .str comp ∧ comp ≠ "" ∧
        p.conclusao.truthy = false ∧ parseComp comp = Option.some (y, m) ∧
        validDate y m cfg.snDay = true ∧ validDate y m cfg.reinfDay = true ∧
        p.kpiEfdReinf = .str "Obrigatória" ∧
        0 ≤ daysFromCivil y m cfg.reinfDay - hoje ∧
        daysFromCivil y m cfg.reinfDay - hoje ≤ cfg.warnReinf := by
  have hred : (buildAlertsSrc events [p] cfg hoje td tn).reinfEmRisco =
      ((procAlerts cfg hoje p).2).toList := by
    unfold buildAlertsSrc
    simp only [List.filterMap_cons, List.filterMap_nil]
    cases (procAlerts cfg hoje p).2 <;> simp
  rw [hred]
  constructor
  · intro h
    have hsome : ((procAlerts cfg hoje p).2).isSome = true := by
      cases hx : (procAlerts cfg hoje p).2 with
      | none => rw [hx] at h; simp [Option.toList] at h
      | some a => rfl
    cases hcompv : p.competencia with
    | str comp =>
        rw [procAlerts_str cfg hoje hcompv] at hsome
        by_cases h1 : comp = "" ∨ p.conclusao.truthy = true
        · exfalso
          have hz : procAlertsBody cfg hoje p comp = (Option.none, Option.none) := by
            unfold procAlertsBody
            rw [if_pos h1]
          rw [hz] at hsome
          simp at hsome
        · push_neg at h1
          obtain ⟨hne, hconc⟩ := h1
          have hconcf : p.conclusao.truthy = false := by
            cases hxx : p.conclusao.truthy
            · rfl
            · exact absurd hxx hconc
          have h1n : ¬(comp = "" ∨ p.conclusao.truthy = true) := by
            intro hx
            rcases hx with hx | hx
            · exact hne hx
            · exact hconc hx
          cases hparse : parseComp comp with
          | none =>
              exfalso
              have hz : procAlertsBody cfg hoje p comp = (Option.none, Option.none) := by
                unfold procAlertsBody
                rw [if_neg h1n, hparse]
              rw [hz] at hsome
              simp at hsome
          | some ym =>
              obtain ⟨y, m⟩ := ym
              have hb : procAlertsBody cfg hoje p comp = procAlertsYm cfg hoje p comp y m := by
                unfold procAlertsBody
                rw [if_neg h1n, hparse]
              rw [hb] at hsome
              by_cases hsn : validDate y m cfg.snDay = true
              · have hy1 : procAlertsYm cfg hoje p comp y m =
                    (if validDate y m cfg.reinfDay = true then
                      (snEntry cfg hoje p comp y m, reinfEntry cfg hoje p comp y m)
                    else (snEntry cfg hoje p comp y m, Option.none)) := by
                  unfold procAlertsYm
                  rw [if_pos hsn]
                by_cases hrf : validDate y m cfg.reinfDay = true
                · rw [hy1, if_pos hrf] at hsome
                  by_cases hwin : p.kpiEfdReinf = .str "Obrigatória" ∧
                      0 ≤ daysFromCivil y m cfg.reinfDay - hoje ∧
                      daysFromCivil y m cfg.reinfDay - hoje ≤ cfg.warnReinf
                  · exact ⟨comp, y, m, rfl, hne, hconcf, hparse, hsn, hrf,
                      hwin.1, hwin.2.1, hwin.2.2⟩
                  · exfalso
                    have hz : reinfEntry cfg hoje p comp y m = Option.none := by
                      unfold reinfEntry
                      rw [if_neg hwin]
                    simp only [hz] at hsome
                    simp at hsome
                · exfalso
                  rw [hy1, if_neg hrf] at hsome
                  simp at hsome
              · exfalso
                have hz : procAlertsYm cfg hoje p comp y m = (Option.none, Option.none) := by
                  unfold procAlertsYm
                  rw [if_neg hsn]
                rw [hz] at hsome
                simp at hsome
    | none =>
        exfalso
        rw [procAlerts_notStr cfg hoje (by intro s hx; rw [hcompv] at hx; exact PyVal.noConfusion hx)] at hsome
        simp at hsome
    | int n =>
        exfalso
        rw [procAlerts_notStr cfg hoje (by intro s hx; rw [hcompv] at hx; exact PyVal.noConfusion hx)] at hsome
        simp at hsome
  · rintro ⟨comp, y, m, hcompv, hne, hconcf, hparse, hsn, hrf, hkpi, h0, hw⟩
    have h1n : ¬(comp = "" ∨ p.conclusao.truthy = true) := by
      intro hx
      rcases hx with hx | hx
      · exact hne hx
      · rw [hconcf] at hx
        exact Bool.noConfusion hx
    have hfin : (procAlerts cfg hoje p).2 =
        Option.some ⟨p.procId, p.empresa, comp, fmtDate (daysFromCivil y m cfg.reinfDay),
          daysFromCivil y m cfg.reinfDay - hoje⟩ := by
      rw [procAlerts_str cfg hoje hcompv]
      unfold procAlertsBody
      rw [if_neg h1n, hparse]
      show (procAlertsYm cfg hoje p comp y m).2 = _
      unfold procAlertsYm
      rw [if_pos hsn, if_pos hrf]
      show reinfEntry cfg hoje p comp y m = _
      unfold reinfEntry
      rw [if_pos ⟨hkpi, h0, hw⟩]
    rw [hfin]
    simp [Option.toList]

/-! ### C8: alert-list ordering -/

/-- C8 counterexample: two open processes whose competency months give
descending due dates produce an SN alert list that is not sorted by due
date. -/
theorem C8_counterexample :
    (buildAlertsSrc [] [c8Proc1, c8Proc2] c8Cfg 19889 [] []).snEmRisco.map
        (fun a => a.prazo) = ["2024-07-20", "2024-06-20"] ∧
    ¬ specSortedByPrazo (buildAlertsSrc [] [c8Proc1, c8Proc2] c8Cfg 19889 [] []).snEmRisco ∧
    daysFromCivil 2024 6 15 = 19889 := by
  refine ⟨by decide, ?_, by decide⟩
  unfold specSortedByPrazo
  decide

/-- C8 amended: the cited alert builders emit entries in input iteration
order without any sorting — alerts for concatenated inputs are the
concatenation of the alerts of the parts. -/
theorem C8_amended (es es1 es2 : List Payload) (ps ps1 ps2 : List ProcRec)
    (cfg : AlertConfig) (hoje : Int) (td tn : List Payload) :
    (buildAlertsSrc es (ps1 ++ ps2) cfg hoje td tn).snEmRisco =
      (buildAlertsSrc es ps1 cfg hoje td tn).snEmRisco ++
        (buildAlertsSrc es ps2 cfg hoje td tn).snEmRisco ∧
    (buildAlertsSrc es (ps1 ++ ps2) cfg hoje td tn).reinfEmRisco =
      (buildAlertsSrc es ps1 cfg hoje td tn).reinfEmRisco ++
        (buildAlertsSrc es ps2 cfg hoje td tn).reinfEmRisco ∧
    (buildAlertsSrc (es1 ++ es2) ps cfg hoje td tn).bloqueantes =
      (buildAlertsSrc es1 ps cfg hoje td tn).bloqueantes ++
        (buildAlertsSrc es2 ps cfg hoje td tn).bloqueantes := by
  unfold buildAlertsSrc
  refine ⟨?_, ?_, ?_⟩ <;> simp [List.filterMap_append]

/-! ### Upsert toolkit: filters, scalar lookups, row replacement -/

theorem distinctB_iff_nodup [DecidableEq α] (l : List α) :
    distinctB l = true ↔ l.Nodup := by
  induction l with
  | nil => simp [distinctB]
  | cons x xs ih => simp [distinctB, List.nodup_cons, ih]

theorem scalarOne_inv_mem {l : List α} {f : α → Bool} {a : α}
    (h : scalarOneOrNone l f = .ok (Option.some a)) :
    a ∈ l ∧ f a = true := by
  unfold scalarOneOrNone at h
  cases hf : l.filter f with
  | nil => rw [hf] at h; exact Option.noConfusion (Except.ok.inj h)
  | cons x t =>
      cases t with
      | nil =>
          rw [hf] at h
          have hx : x = a := Option.some.inj (Except.ok.inj h)
          subst hx
          have : x ∈ l.filter f := by rw [hf]; exact List.mem_cons_self x []
          exact ⟨List.mem_of_mem_filter this, List.of_mem_filter this⟩
      | cons y t2 => rw [hf] at h; exact Except.noConfusion h

theorem scalarOne_inv_uniq {l : List α} {f : α → Bool} {a : α}
    (h : scalarOneOrNone l f = .ok (Option.some a)) :
    ∀ b ∈ l, f b = true → b = a := by
  intro b hb hfb
  unfold scalarOneOrNone at h
  cases hf : l.filter f with
  | nil => rw [hf] at h; exact Option.noConfusion (Except.ok.inj h)
  | cons x t =>
      cases t with
      | nil =>
          rw [hf] at h
          have hx : x = a := Option.some.inj (Except.ok.inj h)
          have hbf : b ∈ l.filter f := List.mem_filter.mpr ⟨hb, hfb⟩
          rw [hf] at hbf
          have : b = x := by simpa using hbf
          rw [this, hx]
      | cons y t2 => rw [hf] at h; exact Except.noConfusion h

theorem scalarOne_inv_none {l : List α} {f : α → Bool}
    (h : scalarOneOrNone l f = .ok Option.none) :
    ∀ b ∈ l, f b = false := by
  intro b hb
  unfold scalarOneOrNone at h
  cases hf : l.filter f with
  | nil =>
      have := List.filter_eq_nil_iff.mp hf b hb
      simpa using this
  | cons x t =>
      cases t with
      | nil => rw [hf] at h; exact Option.noConfusion (Except.ok.inj h)
      | cons y t2 => rw [hf] at h; exact Except.noConfusion h

theorem scalar_of_filter_single {l : List α} {f : α → Bool} {a : α}
    (h : l.filter f = [a]) : scalarOneOrNone l f = .ok (Option.some a) := by
  unfold scalarOneOrNone
  rw [h]

theorem scalar_of_filter_nil {l : List α} {f : α → Bool}
    (h : l.filter f = []) : scalarOneOrNone l f = .ok Option.none := by
  unfold scalarOneOrNone
  rw [h]

theorem filter_eq_nil_of (l : List α) (f : α → Bool)
    (h : ∀ b ∈ l, f b = false) : l.filter f = [] := by
  apply List.filter_eq_nil_iff.mpr
  intro b hb
  simp [h b hb]

theorem mem_replaceRow_elim {l : List α} {idOf : α → Nat} {i : Nat} {r x : α}
    (h : x ∈ replaceRow l idOf i r) : x = r ∨ (x ∈ l ∧ idOf x ≠ i) := by
  unfold replaceRow at h
  obtain ⟨y, hy, hxy⟩ := List.mem_map.mp h
  by_cases hid : idOf y = i
  · left
    rw [if_pos hid] at hxy
    exact hxy.symm
  · right
    rw [if_neg hid] at hxy
    exact ⟨hxy ▸ hy, hxy ▸ hid⟩

theorem map_id_replaceRow {l : List α} {idOf : α → Nat} {c : Nat} {r : α}
    (hid : idOf r = c) : (replaceRow l idOf c r).map idOf = l.map idOf := by
  unfold replaceRow
  rw [List.map_map]
  apply List.map_congr_left
  intro x hx
  by_cases h : idOf x = c
  · simp [h, hid]
  · simp [h]

theorem replaceRow_self {l : List α} {idOf : α → Nat} {r : α}
    (hmem : r ∈ l) (hnodup : (l.map idOf).Nodup) :
    replaceRow l idOf (idOf r) r = l := by
  unfold replaceRow
  conv_rhs => rw [← List.map_id l]
  apply List.map_congr_left
  intro x hx
  by_cases h : idOf x = idOf r
  · have := List.inj_on_of_nodup_map hnodup hx hmem h
    rw [if_pos h, this]
    rfl
  · rw [if_neg h]
    rfl

theorem filter_replaceRow_single {l : List α} {idOf : α → Nat} {c r1 : α}
    {pred : α → Bool}
    (hnodup : (l.map idOf).Nodup) (hc : c ∈ l) (hid : idOf r1 = idOf c)
    (hpred1 : pred r1 = true)
    (hothers : ∀ b ∈ l, idOf b ≠ idOf c → pred b = false) :
    (replaceRow l idOf (idOf c) r1).filter pred = [r1] := by
  induction l with
  | nil => exact absurd hc (List.not_mem_nil c)
  | cons x xs ih =>
      rw [List.map_cons, List.nodup_cons] at hnodup
      unfold replaceRow
      rw [List.map_cons, List.filter_cons]
      by_cases hx : idOf x = idOf c
      · rw [if_pos hx]
        rw [if_pos (by rw [hpred1])]
        have hxs : ∀ y ∈ xs, pred (if idOf y = idOf c then r1 else y) = false := by
          intro y hy
          have hyneq : idOf y ≠ idOf c := by
            intro he
            have : idOf x ∈ List.map idOf xs := List.mem_map.mpr ⟨y, hy, by rw [he, hx]⟩
            exact hnodup.1 this
          rw [if_neg hyneq]
          exact hothers y (List.mem_cons_of_mem x hy) hyneq
        have hemp : (xs.map (fun y => if idOf y = idOf c then r1 else y)).filter pred = [] := by
          apply filter_eq_nil_of
          intro b hb
          obtain ⟨y, hy, hby⟩ := List.mem_map.mp hb
          rw [← hby]
          exact hxs y hy
        rw [hemp]
      · rw [if_neg hx]
        have hcx : c ∈ xs := by
          cases List.mem_cons.mp hc with
          | inl h => exact absurd (by rw [h]) hx
          | inr h => exact h
        have hpx : pred x = false := hothers x (List.mem_cons_self x xs) hx
        rw [if_neg (by rw [hpx]; exact Bool.false_ne_true)]
        exact ih hnodup.2 hcx (fun b hb hne => hothers b (List.mem_cons_of_mem x hb) hne)

theorem filter_replaceRow_nil {l : List α} {idOf : α → Nat} {i : Nat} {r1 : α}
    {pred : α → Bool}
    (hr1 : pred r1 = false) (hall : ∀ b ∈ l, pred b = false) :
    (replaceRow l idOf i r1).filter pred = [] := by
  apply filter_eq_nil_of
  intro b hb
  rcases mem_replaceRow_elim hb with h | ⟨h, _⟩
  · rw [h]; exact hr1
  · exact hall b h

theorem filter_append_single {l : List α} {r1 : α} {pred : α → Bool}
    (hall : ∀ b ∈ l, pred b = false) (hpred1 : pred r1 = true) :
    (l ++ [r1]).filter pred = [r1] := by
  rw [List.filter_append, filter_eq_nil_of l pred hall]
  simp [hpred1]

theorem filter_append_nil {l : List α} {r1 : α} {pred : α → Bool}
    (hall : ∀ b ∈ l, pred b = false) (hpred1 : pred r1 = false) :
    (l ++ [r1]).filter pred = [] := by
  rw [List.filter_append, filter_eq_nil_of l pred hall]
  simp [hpred1]

/-! ### Field idempotence of the update blocks -/

theorem pyOrIntO_some_of (i : Int) {b : Option Int} (hb : b = Option.some i) :
    pyOrIntO (Option.some i) b = Option.some i := by
  by_cases h : i = 0
  · simp [pyOrIntO, h, hb, h ▸ hb]
  · simp [pyOrIntO, h]

theorem companyNomeVal_idem (p : Payload) (old : String) :
    companyNomeVal p (companyNomeVal p old) = companyNomeVal p old := by
  unfold companyNomeVal
  by_cases h1 : (pget p "EmpNome").truthy = true
  · rw [pOr_truthy _ h1, pOr_truthy _ h1]
  · have h1f : (pget p "EmpNome").truthy = false := by
      cases hx : (pget p "EmpNome").truthy
      · rfl
      · exact absurd hx h1
    rw [pOr_falsy _ h1f, pOr_falsy _ h1f]
    by_cases h2 : (pget p "Nome").truthy = true
    · rw [pOr_truthy _ h2, pOr_truthy _ h2]
    · have h2f : (pget p "Nome").truthy = false := by
        cases hx : (pget p "Nome").truthy
        · rfl
        · exact absurd hx h2
      rw [pOr_falsy _ h2f, pOr_falsy _ h2f, pOr_str_empty, pOr_str_empty]
      show pyStrip (pyStrip old) = pyStrip old
      exact pyStrip_idem old

theorem truthy_eq_false_of_not {v : PyVal} (h : ¬ v.truthy = true) : v.truthy = false := by
  cases hx : v.truthy
  · rfl
  · exact absurd hx h

theorem companyUfVal_idem {p : Payload} {old u : Option String}
    (h : companyUfVal p old = .ok u) : companyUfVal p u = .ok u := by
  unfold companyUfVal at h ⊢
  by_cases h1 : (pget p "UF").truthy = true
  · rw [pOr_truthy _ h1] at h ⊢
    exact h
  · rw [pOr_falsy _ (truthy_eq_false_of_not h1)] at h ⊢
    by_cases h2 : (pget p "estado").truthy = true
    · rw [pOr_truthy _ h2] at h ⊢
      exact h
    · rw [pOr_falsy _ (truthy_eq_false_of_not h2)] at h ⊢
      cases old with
      | none =>
          simp only [optToVal] at h
          rw [pOr_falsy _ (by rfl)] at h
          have hu : u = Option.none := by
            have := Except.ok.inj h
            simpa using this.symm
          subst hu
          simp only [optToVal]
          rw [pOr_falsy _ (by rfl)]
          exact h
      | some s =>
          simp only [optToVal] at h
          rw [pOr_str_empty] at h
          by_cases hs : s = ""
          · subst hs
            have hu : u = Option.none := by
              have := Except.ok.inj h
              simpa using this.symm
            subst hu
            simp only [optToVal]
            rw [pOr_falsy _ (by rfl)]
            simpa using h
          · have hub : u = Option.some (pyTake (pyUpper s) 2) := by
              have h2 := Except.ok.inj h
              rw [if_neg (by
                intro hx
                exact hs ((pyUpper_empty_iff s).mp ((pyTake_empty_iff (pyUpper s) 2 (by norm_num)).mp hx)))] at h2
              exact h2.symm
            subst hub
            simp only [optToVal]
            have hne2 : pyTake (pyUpper s) 2 ≠ "" := by
              intro hx
              exact hs ((pyUpper_empty_iff s).mp ((pyTake_empty_iff (pyUpper s) 2 (by norm_num)).mp hx))
            rw [pOr_str_empty]
            have hred : pyTake (pyUpper (pyTake (pyUpper s) 2)) 2 = pyTake (pyUpper s) 2 := by
              rw [pyUpper_take, pyUpper_idem, pyTake_take]
            show Except.ok (if pyTake (pyUpper (pyTake (pyUpper s) 2)) 2 = ""
              then Option.none else Option.some (pyTake (pyUpper (pyTake (pyUpper s) 2)) 2)) = _
            rw [hred, if_neg hne2]

theorem applyCompany_cnpj {c r1 : CompanyRow} {p : Payload} {idAc : Option Int}
    (h : applyCompany c p idAc = .ok r1) : r1.cnpj = c.cnpj ∧ r1.id = c.id := by
  unfold applyCompany at h
  cases huf : companyUfVal p c.uf with
  | error e => rw [huf] at h; exact Except.noConfusion h
  | ok uf1 =>
      rw [huf] at h
      have := Except.ok.inj h
      rw [← this]
      exact ⟨rfl, rfl⟩

theorem applyCompany_idAc {c r1 : CompanyRow} {p : Payload} {idAc : Option Int}
    (h : applyCompany c p idAc = .ok r1) :
    r1.idAcessorias = pyOrIntO idAc c.idAcessorias := by
  unfold applyCompany at h
  cases huf : companyUfVal p c.uf with
  | error e => rw [huf] at h; exact Except.noConfusion h
  | ok uf1 =>
      rw [huf] at h
      have := Except.ok.inj h
      rw [← this]

theorem applyCompany_idem {c r1 : CompanyRow} {p : Payload} {idAc : Option Int}
    (h : applyCompany c p idAc = .ok r1) : applyCompany r1 p idAc = .ok r1 := by
  unfold applyCompany at h ⊢
  cases huf : companyUfVal p c.uf with
  | error e => rw [huf] at h; exact Except.noConfusion h
  | ok uf1 =>
      rw [huf] at h
      have hid : r1.idAcessorias = pyOrIntO idAc c.idAcessorias := by
        rw [← Except.ok.inj h]
      have hnome : r1.nome = companyNomeVal p c.nome := by
        rw [← Except.ok.inj h]
      have hnf : r1.nomeFantasia =
          pOr (pget p "NomeFantasia") (pOr (pget p "fantasia") c.nomeFantasia) := by
        rw [← Except.ok.inj h]
      have hem : r1.email = pOr (pget p "Email") (pOr (pget p "email") c.email) := by
        rw [← Except.ok.inj h]
      have hte : r1.telefone = pOr (pget p "Telefone") (pOr (pget p "telefone") c.telefone) := by
        rw [← Except.ok.inj h]
      have hci : r1.cidade = pOr (pget p "Cidade") (pOr (pget p "cidade") c.cidade) := by
        rw [← Except.ok.inj h]
      have hufr : r1.uf = uf1 := by
        rw [← Except.ok.inj h]
      have hda : r1.dados = p := by
        rw [← Except.ok.inj h]
      rw [hufr, companyUfVal_idem huf]
      congr 1
      rw [hid, pyOrIntO_absorb, ← hid]
      rw [hnome, companyNomeVal_idem, ← hnome]
      rw [hnf, pOr_absorb3, ← hnf]
      rw [hem, pOr_absorb3, ← hem]
      rw [hte, pOr_absorb3, ← hte]
      rw [hci, pOr_absorb3, ← hci]
      rw [← hufr, ← hda]


/-! ### Second-run company lookup and upsert stability -/

theorem pyOrIntO_some_ne {i : Int} (hi : i ≠ 0) (b : Option Int) :
    pyOrIntO (Option.some i) b = Option.some i := by
  simp [pyOrIntO, hi]

theorem pyOrIntO_some_zero (b : Option Int) : pyOrIntO (Option.some 0) b = b := by
  simp [pyOrIntO]

theorem mem_replaceRow_of {l : List α} {idOf : α → Nat} {r c : α}
    (hc : c ∈ l) : r ∈ replaceRow l idOf (idOf c) r := by
  unfold replaceRow
  exact List.mem_map.mpr ⟨c, hc, by rw [if_pos rfl]⟩

theorem companiesOk_nodup {l : List CompanyRow} (h : companiesOk l = true) :
    (l.map (fun c => c.id)).Nodup := by
  unfold companiesOk at h
  rw [Bool.and_eq_true, Bool.and_eq_true] at h
  exact (distinctB_iff_nodup _).mp h.1.1

theorem upsertCompany_close {dbA : DB} {p : Payload} {cnpj : String} {r1 : CompanyRow}
    (hcn : companyCnpjChain p = Option.some cnpj)
    (hlook2 : lookupCompany dbA.companies (companyIdAcChain p) cnpj =
      .ok (Option.some r1))
    (happly2 : applyCompany r1 p (companyIdAcChain p) = .ok r1)
    (hrepl : replaceRow dbA.companies (fun x => x.id) r1.id r1 = dbA.companies)
    (hok : companiesOk dbA.companies = true) :
    upsertCompany dbA p = .ok (dbA, r1.id) := by
  simp only [upsertCompany, hcn, hlook2, happly2, hrepl, hok, eq_self_iff_true, if_true]

theorem upsertCompany_stable {db db1 dbA : DB} {p : Payload} {cid : Nat}
    (h : upsertCompany db p = .ok (db1, cid))
    (hA : dbA.companies = db1.companies) :
    upsertCompany dbA p = .ok (dbA, cid) := by
  unfold upsertCompany at h
  cases hcn : companyCnpjChain p with
  | none => rw [hcn] at h; exact Except.noConfusion h
  | some cnpj =>
  simp only [hcn] at h
  cases hlook : lookupCompany db.companies (companyIdAcChain p) cnpj with
  | error e => rw [hlook] at h; exact Except.noConfusion h
  | ok found =>
  cases found with
  | some c =>
    simp only [hlook] at h
    cases happly : applyCompany c p (companyIdAcChain p) with
    | error e => rw [happly] at h; exact Except.noConfusion h
    | ok r1 =>
    simp only [happly] at h
    cases hok : companiesOk (replaceRow db.companies (fun x => x.id) c.id r1) with
    | false => rw [hok] at h; simp at h
    | true =>
    rw [if_pos hok] at h
    have hpair := Except.ok.inj h
    have hcid : r1.id = cid := by
      have := congrArg (fun x => x.2) hpair
      simpa using this
    have hdb1c : db1.companies = replaceRow db.companies (fun x => x.id) c.id r1 := by
      have := congrArg (fun x => x.1.companies) hpair
      simpa using this.symm
    subst hcid
    have hAnl : dbA.companies = replaceRow db.companies (fun x => x.id) c.id r1 := by
      rw [hA, hdb1c]
    have hok2 : companiesOk dbA.companies = true := by rw [hAnl]; exact hok
    have hnodupA : (dbA.companies.map (fun x => x.id)).Nodup := companiesOk_nodup hok2
    have hr1cn := applyCompany_cnpj happly
    have hr1id : r1.id = c.id := hr1cn.2
    have hmap := @map_id_replaceRow CompanyRow db.companies (fun x => x.id) c.id r1 hr1id
    have hnodup0 : (db.companies.map (fun x => x.id)).Nodup := by
      rw [← hmap, ← hAnl]
      exact hnodupA
    have hr1idAc : r1.idAcessorias = pyOrIntO (companyIdAcChain p) c.idAcessorias :=
      applyCompany_idAc happly
    have happly2 := applyCompany_idem happly
    suffices hcore : c ∈ db.companies ∧
        lookupCompany dbA.companies (companyIdAcChain p) cnpj = .ok (Option.some r1) by
      obtain ⟨hmemc, hlook2⟩ := hcore
      have hr1mem : r1 ∈ dbA.companies := by
        rw [hAnl]
        exact mem_replaceRow_of hmemc
      have hrepl : replaceRow dbA.companies (fun x => x.id) r1.id r1 = dbA.companies :=
        replaceRow_self hr1mem hnodupA
      exact upsertCompany_close hcn hlook2 happly2 hrepl hok2
    cases hidc : companyIdAcChain p with
    | some i =>
        rw [hidc] at hr1idAc
        simp only [lookupCompany, hidc] at hlook
        cases hs1 : scalarOneOrNone db.companies
            (fun c => c.idAcessorias == Option.some i) with
        | error e => rw [hs1] at hlook; exact Except.noConfusion hlook
        | ok o1 =>
        cases o1 with
        | some c0 =>
            rw [hs1] at hlook
            have hc0 : c0 = c := Option.some.inj (Except.ok.inj hlook)
            subst hc0
            have hcm := scalarOne_inv_mem hs1
            have huniq := scalarOne_inv_uniq hs1
            have hcidAc : c0.idAcessorias = Option.some i := by
              have := hcm.2
              simpa using this
            have hr1some : r1.idAcessorias = Option.some i := by
              rw [hr1idAc, pyOrIntO_some_of i hcidAc]
            refine ⟨hcm.1, ?_⟩
            have hfil : (replaceRow db.companies (fun x => x.id) c0.id r1).filter
                (fun c => c.idAcessorias == Option.some i) = [r1] := by
              apply filter_replaceRow_single hnodup0 hcm.1 hr1id
              · simp [hr1some]
              · intro b hb hbne
                cases hbp : (b.idAcessorias == Option.some i) with
                | false => rfl
                | true =>
                    exact absurd (congrArg (fun x => x.id) (huniq b hb hbp)) hbne
            simp only [lookupCompany, hAnl, scalar_of_filter_single hfil]
        | none =>
            rw [hs1] at hlook
            have hlookC : scalarOneOrNone db.companies (fun c => c.cnpj == cnpj) =
                .ok (Option.some c) := hlook
            have hnone1 := scalarOne_inv_none hs1
            have hcm := scalarOne_inv_mem hlookC
            have huniqC := scalarOne_inv_uniq hlookC
            have hr1cnpj : (r1.cnpj == cnpj) = true := by
              rw [hr1cn.1]
              exact hcm.2
            refine ⟨hcm.1, ?_⟩
            by_cases hi0 : i = 0
            · subst hi0
              have hr1eq : r1.idAcessorias = c.idAcessorias := by
                rw [hr1idAc, pyOrIntO_some_zero]
              have hfil1 : (replaceRow db.companies (fun x => x.id) c.id r1).filter
                  (fun c => c.idAcessorias == Option.some (0 : Int)) = [] := by
                apply filter_replaceRow_nil
                · rw [hr1eq]
                  exact hnone1 c hcm.1
                · exact hnone1
              have hfil2 : (replaceRow db.companies (fun x => x.id) c.id r1).filter
                  (fun c => c.cnpj == cnpj) = [r1] := by
                apply filter_replaceRow_single hnodup0 hcm.1 hr1id hr1cnpj
                intro b hb hbne
                cases hbp : (b.cnpj == cnpj) with
                | false => rfl
                | true => exact absurd (congrArg (fun x => x.id) (huniqC b hb hbp)) hbne
              simp only [lookupCompany, hAnl, scalar_of_filter_nil hfil1,
                scalar_of_filter_single hfil2]
            · have hr1some : r1.idAcessorias = Option.some i := by
                rw [hr1idAc, pyOrIntO_some_ne hi0]
              have hfil1 : (replaceRow db.companies (fun x => x.id) c.id r1).filter
                  (fun c => c.idAcessorias == Option.some i) = [r1] := by
                apply filter_replaceRow_single hnodup0 hcm.1 hr1id
                · simp [hr1some]
                · intro b hb hbne
                  exact hnone1 b hb
              simp only [lookupCompany, hAnl, scalar_of_filter_single hfil1]
    | none =>
        rw [hidc] at hr1idAc
        simp only [lookupCompany, hidc] at hlook
        have hcm := scalarOne_inv_mem hlook
        have huniqC := scalarOne_inv_uniq hlook
        have hr1cnpj : (r1.cnpj == cnpj) = true := by
          rw [hr1cn.1]
          exact hcm.2
        refine ⟨hcm.1, ?_⟩
        have hfil2 : (replaceRow db.companies (fun x => x.id) c.id r1).filter
            (fun c => c.cnpj == cnpj) = [r1] := by
          apply filter_replaceRow_single hnodup0 hcm.1 hr1id hr1cnpj
          intro b hb hbne
          cases hbp : (b.cnpj == cnpj) with
          | false => rfl
          | true => exact absurd (congrArg (fun x => x.id) (huniqC b hb hbp)) hbne
        simp only [lookupCompany, hAnl, scalar_of_filter_single hfil2]
  | none =>
    simp only [hlook] at h
    cases happly : applyCompany (freshCompany db.nextCompanyId cnpj p) p
        (companyIdAcChain p) with
    | error e => rw [happly] at h; exact Except.noConfusion h
    | ok r1 =>
    simp only [happly] at h
    cases hok : companiesOk (db.companies ++ [r1]) with
    | false => rw [hok] at h; simp at h
    | true =>
    rw [if_pos hok] at h
    have hpair := Except.ok.inj h
    have hcid : r1.id = cid := by
      have := congrArg (fun x => x.2) hpair
      simpa using this
    have hdb1c : db1.companies = db.companies ++ [r1] := by
      have := congrArg (fun x => x.1.companies) hpair
      simpa using this.symm
    subst hcid
    have hAnl : dbA.companies = db.companies ++ [r1] := by rw [hA, hdb1c]
    have hok2 : companiesOk dbA.companies = true := by rw [hAnl]; exact hok
    have hnodupA : (dbA.companies.map (fun x => x.id)).Nodup := companiesOk_nodup hok2
    have hr1cn := applyCompany_cnpj happly
    have hr1cnpj : (r1.cnpj == cnpj) = true := by
      rw [hr1cn.1]
      exact beq_self_eq_true cnpj
    have hr1idAc : r1.idAcessorias = pyOrIntO (companyIdAcChain p) Option.none :=
      applyCompany_idAc happly
    have happly2 := applyCompany_idem happly
    have hr1mem : r1 ∈ dbA.companies := by
      rw [hAnl]
      simp
    have hrepl : replaceRow dbA.companies (fun x => x.id) r1.id r1 = dbA.companies :=
      replaceRow_self hr1mem hnodupA
    suffices hlook2 : lookupCompany dbA.companies (companyIdAcChain p) cnpj =
        .ok (Option.some r1) by
      exact upsertCompany_close hcn hlook2 happly2 hrepl hok2
    cases hidc : companyIdAcChain p with
    | some i =>
        rw [hidc] at hr1idAc
        simp only [lookupCompany, hidc] at hlook
        cases hs1 : scalarOneOrNone db.companies
            (fun c => c.idAcessorias == Option.some i) with
        | error e => rw [hs1] at hlook; exact Except.noConfusion hlook
        | ok o1 =>
        cases o1 with
        | some c0 =>
            rw [hs1] at hlook
            exact Option.noConfusion (Except.ok.inj hlook)
        | none =>
            rw [hs1] at hlook
            have hlookC : scalarOneOrNone db.companies (fun c => c.cnpj == cnpj) =
                .ok Option.none := hlook
            have hnone1 := scalarOne_inv_none hs1
            have hnoneC := scalarOne_inv_none hlookC
            by_cases hi0 : i = 0
            · subst hi0
              have hr1none : r1.idAcessorias = Option.none := by
                rw [hr1idAc, pyOrIntO_some_zero]
              have hfil1 : (db.companies ++ [r1]).filter
                  (fun c => c.idAcessorias == Option.some (0 : Int)) = [] := by
                apply filter_append_nil hnone1
                simp [hr1none]
              have hfil2 : (db.companies ++ [r1]).filter
                  (fun c => c.cnpj == cnpj) = [r1] :=
                filter_append_single hnoneC hr1cnpj
              simp only [lookupCompany, hAnl, scalar_of_filter_nil hfil1,
                scalar_of_filter_single hfil2]
            · have hr1some : r1.idAcessorias = Option.some i := by
                rw [hr1idAc, pyOrIntO_some_ne hi0]
              have hfil1 : (db.companies ++ [r1]).filter
                  (fun c => c.idAcessorias == Option.some i) = [r1] := by
                apply filter_append_single hnone1
                simp [hr1some]
              simp only [lookupCompany, hAnl, scalar_of_filter_single hfil1]
    | none =>
        rw [hidc] at hr1idAc
        simp only [lookupCompany, hidc] at hlook
        have hnoneC := scalarOne_inv_none hlook
        have hfil2 : (db.companies ++ [r1]).filter (fun c => c.cnpj == cnpj) = [r1] :=
          filter_append_single hnoneC hr1cnpj
        simp only [lookupCompany, hAnl, scalar_of_filter_single hfil2]


/-! ### Process upsert stability -/

theorem processProgresso_idem {p : Payload} {old pr : Option FloatLit}
    (h : processProgresso p old = .ok pr) : processProgresso p pr = .ok pr := by
  simp only [processProgresso] at h ⊢
  by_cases hv : (pOr (pget p "ProcProgresso") (pget p "progresso")).truthy = true
  · rw [if_pos hv] at h ⊢
    exact h
  · rw [if_neg hv] at h ⊢

theorem applyProcess_fields {r r1 : ProcessRow} {p : Payload} {empId : Nat}
    (h : applyProcess r p empId = .ok r1) :
    r1.id = r.id ∧ r1.idAcessorias = r.idAcessorias := by
  unfold applyProcess at h
  cases hpr : processProgresso p r.progresso with
  | error e => rw [hpr] at h; exact Except.noConfusion h
  | ok prog =>
      rw [hpr] at h
      rw [← Except.ok.inj h]
      exact ⟨rfl, rfl⟩

theorem applyProcess_idem {r r1 : ProcessRow} {p : Payload} {empId : Nat}
    (h : applyProcess r p empId = .ok r1) : applyProcess r1 p empId = .ok r1 := by
  unfold applyProcess at h ⊢
  cases hpr : processProgresso p r.progresso with
  | error e => rw [hpr] at h; exact Except.noConfusion h
  | ok prog =>
      rw [hpr] at h
      have hprog : r1.progresso = prog := by
        rw [← Except.ok.inj h]
      have htit : r1.titulo = pOr (pget p "ProcNome") (pOr (pget p "titulo") r.titulo) := by
        rw [← Except.ok.inj h]
      have hst : r1.status = pOr (pget p "ProcStatus") (pOr (pget p "status") r.status) := by
        rw [← Except.ok.inj h]
      have hdep : r1.departamento = pOr (pget p "ProcDepartamento")
          (pOr (pget p "Departamento") r.departamento) := by
        rw [← Except.ok.inj h]
      have hio : r1.dtInicio = orKeep (parseDatetime (pOr (pget p "ProcInicio")
          (pget p "inicio"))) r.dtInicio := by
        rw [← Except.ok.inj h]
      have hpc : r1.dtPrevConclusao = orKeep (parseDatetime (pOr (pget p "ProcPrevisaoConclusao")
          (pget p "dt_prev_conclusao"))) r.dtPrevConclusao := by
        rw [← Except.ok.inj h]
      have hco : r1.dtConclusao = orKeep (parseDatetime (pOr (pget p "ProcConclusao")
          (pget p "conclusao"))) r.dtConclusao := by
        rw [← Except.ok.inj h]
      have hue : r1.ultimoEvento = orKeep (parseDatetime (pOr (pget p "DtLastDH")
          (pget p "ultimo_evento"))) r.ultimoEvento := by
        rw [← Except.ok.inj h]
      have hge : r1.gestor = pOr (pget p "ProcGestor") (pOr (pget p "GestorNome")
          (pOr (pget p "gestor") r.gestor)) := by
        rw [← Except.ok.inj h]
      have hpri : r1.prioridade = pOr (pget p "ProcPrioridade")
          (pOr (pget p "prioridade") r.prioridade) := by
        rw [← Except.ok.inj h]
      have hraw : r1.raw = p := by
        rw [← Except.ok.inj h]
      have hemp : r1.empresaId = empId := by
        rw [← Except.ok.inj h]
      rw [hprog, processProgresso_idem hpr]
      rw [htit, pOr_absorb3, ← htit]
      rw [hst, pOr_absorb3, ← hst]
      rw [hdep, pOr_absorb3, ← hdep]
      rw [hio, orKeep_absorb, ← hio]
      rw [hpc, orKeep_absorb, ← hpc]
      rw [hco, orKeep_absorb, ← hco]
      rw [hue, orKeep_absorb, ← hue]
      rw [hge, pOr_absorb4, ← hge]
      rw [hpri, pOr_absorb3, ← hpri]
      rw [← hprog, ← hraw, ← hemp]

theorem processesOk_nodup {l : List ProcessRow} (h : processesOk l = true) :
    (l.map (fun r => r.id)).Nodup := by
  unfold processesOk at h
  rw [Bool.and_eq_true] at h
  exact (distinctB_iff_nodup _).mp h.1

theorem upsertProcess_close {dbA : DB} {p : Payload} {procId : Int} {cid : Nat}
    {r1 : ProcessRow}
    (hpc : processIdChain p = Option.some procId)
    (hco : upsertCompany dbA p = .ok (dbA, cid))
    (hsc : scalarOneOrNone dbA.processes (fun r => r.idAcessorias == procId) =
      .ok (Option.some r1))
    (happly2 : applyProcess r1 p cid = .ok r1)
    (hrepl : replaceRow dbA.processes (fun x => x.id) r1.id r1 = dbA.processes)
    (hok : processesOk dbA.processes = true) :
    upsertProcess dbA p = .ok (dbA, r1.id) := by
  simp only [upsertProcess, hpc, hco, hsc, happly2, hrepl, hok, eq_self_iff_true, if_true]

theorem upsertProcess_stable {db db2 dbA : DB} {p : Payload} {pid : Nat}
    (h : upsertProcess db p = .ok (db2, pid))
    (hAc : dbA.companies = db2.companies)
    (hAp : dbA.processes = db2.processes) :
    upsertProcess dbA p = .ok (dbA, pid) := by
  unfold upsertProcess at h
  cases hpc : processIdChain p with
  | none => rw [hpc] at h; exact Except.noConfusion h
  | some procId =>
  simp only [hpc] at h
  cases hcomp : upsertCompany db p with
  | error e => rw [hcomp] at h; exact Except.noConfusion h
  | ok pr =>
  obtain ⟨db1, cid⟩ := pr
  simp only [hcomp] at h
  cases hsc : scalarOneOrNone db1.processes (fun r => r.idAcessorias == procId) with
  | error e => rw [hsc] at h; exact Except.noConfusion h
  | ok found =>
  cases found with
  | some c =>
    simp only [hsc] at h
    cases happly : applyProcess c p cid with
    | error e => rw [happly] at h; exact Except.noConfusion h
    | ok r1 =>
    simp only [happly] at h
    cases hok : processesOk (replaceRow db1.processes (fun x => x.id) c.id r1) with
    | false => rw [hok] at h; simp at h
    | true =>
    rw [if_pos hok] at h
    have hpair := Except.ok.inj h
    have hpid : r1.id = pid := by
      have := congrArg (fun x => x.2) hpair
      simpa using this
    have hdbP : db2.processes = replaceRow db1.processes (fun x => x.id) c.id r1 := by
      have := congrArg (fun x => x.1.processes) hpair
      simpa using this.symm
    have hdbC : db2.companies = db1.companies := by
      have := congrArg (fun x => x.1.companies) hpair
      simpa using this.symm
    subst hpid
    have hAnl : dbA.processes = replaceRow db1.processes (fun x => x.id) c.id r1 := by
      rw [hAp, hdbP]
    have hok2 : processesOk dbA.processes = true := by rw [hAnl]; exact hok
    have hnodupA := processesOk_nodup hok2
    have hcm := scalarOne_inv_mem hsc
    have huniq := scalarOne_inv_uniq hsc
    have hfl := applyProcess_fields happly
    have hmap := @map_id_replaceRow ProcessRow db1.processes (fun x => x.id) c.id r1 hfl.1
    have hnodup0 : (db1.processes.map (fun x => x.id)).Nodup := by
      rw [← hmap, ← hAnl]
      exact hnodupA
    have hr1idAc : (r1.idAcessorias == procId) = true := by
      rw [hfl.2]
      exact hcm.2
    have hfil : (replaceRow db1.processes (fun x => x.id) c.id r1).filter
        (fun r => r.idAcessorias == procId) = [r1] := by
      apply filter_replaceRow_single hnodup0 hcm.1 hfl.1 hr1idAc
      intro b hb hbne
      cases hbp : (b.idAcessorias == procId) with
      | false => rfl
      | true => exact absurd (congrArg (fun x => x.id) (huniq b hb hbp)) hbne
    have hsc2 : scalarOneOrNone dbA.processes (fun r => r.idAcessorias == procId) =
        .ok (Option.some r1) := by
      rw [hAnl]
      exact scalar_of_filter_single hfil
    have hco2 : upsertCompany dbA p = .ok (dbA, cid) :=
      upsertCompany_stable hcomp (by rw [hAc, hdbC])
    have happly2 := applyProcess_idem happly
    have hr1mem : r1 ∈ dbA.processes := by
      rw [hAnl]
      exact mem_replaceRow_of hcm.1
    have hrepl := replaceRow_self hr1mem hnodupA
    exact upsertProcess_close hpc hco2 hsc2 happly2 hrepl hok2
  | none =>
    simp only [hsc] at h
    cases happly : applyProcess (freshProcess db1.nextProcessId procId cid) p cid with
    | error e => rw [happly] at h; exact Except.noConfusion h
    | ok r1 =>
    simp only [happly] at h
    cases hok : processesOk (db1.processes ++ [r1]) with
    | false => rw [hok] at h; simp at h
    | true =>
    rw [if_pos hok] at h
    have hpair := Except.ok.inj h
    have hpid : r1.id = pid := by
      have := congrArg (fun x => x.2) hpair
      simpa using this
    have hdbP : db2.processes = db1.processes ++ [r1] := by
      have := congrArg (fun x => x.1.processes) hpair
      simpa using this.symm
    have hdbC : db2.companies = db1.companies := by
      have := congrArg (fun x => x.1.companies) hpair
      simpa using this.symm
    subst hpid
    have hAnl : dbA.processes = db1.processes ++ [r1] := by rw [hAp, hdbP]
    have hok2 : processesOk dbA.processes = true := by rw [hAnl]; exact hok
    have hnodupA := processesOk_nodup hok2
    have hnone := scalarOne_inv_none hsc
    have hfl := applyProcess_fields happly
    have hr1idAc : (r1.idAcessorias == procId) = true := by
      rw [hfl.2]
      exact beq_self_eq_true procId
    have hfil : (db1.processes ++ [r1]).filter (fun r => r.idAcessorias == procId) = [r1] :=
      filter_append_single hnone hr1idAc
    have hsc2 : scalarOneOrNone dbA.processes (fun r => r.idAcessorias == procId) =
        .ok (Option.some r1) := by
      rw [hAnl]
      exact scalar_of_filter_single hfil
    have hco2 : upsertCompany dbA p = .ok (dbA, cid) :=
      upsertCompany_stable hcomp (by rw [hAc, hdbC])
    have happly2 := applyProcess_idem happly
    have hr1mem : r1 ∈ dbA.processes := by
      rw [hAnl]
      simp
    have hrepl := replaceRow_self hr1mem hnodupA
    exact upsertProcess_close hpc hco2 hsc2 happly2 hrepl hok2


/-! ### Delivery upsert stability -/

theorem deliveriesOk_nodup {l : List DeliveryRow} (h : deliveriesOk l = true) :
    (l.map (fun r => r.id)).Nodup := by
  unfold deliveriesOk at h
  rw [Bool.and_eq_true, Bool.and_eq_true] at h
  exact (distinctB_iff_nodup _).mp h.1.1

theorem applyDelivery_idem (r : DeliveryRow) (p : Payload) (dId : Option Int)
    (empId : Nat) (tipo : PyVal) (comp : Option String) :
    applyDelivery (applyDelivery r p dId empId tipo comp) p dId empId tipo comp =
      applyDelivery r p dId empId tipo comp := by
  unfold applyDelivery
  cases comp with
  | some c2 => simp [pyOrIntO_absorb, pOr_absorb, pOr_absorb3, pOr_absorb4, orKeep_absorb]
  | none => simp [pyOrIntO_absorb, pOr_absorb, pOr_absorb3, pOr_absorb4, orKeep_absorb]

theorem tripleMatch_apply {c : DeliveryRow} {p : Payload} {dId : Option Int} {cid : Nat}
    {tipo : PyVal} {comp : Option String}
    (htipo : tipo = PyVal.none ∨ tipo.truthy = true)
    (hc : (c.empresaId == cid && c.tipo == tipo && c.competencia == comp) = true) :
    ((applyDelivery c p dId cid tipo comp).empresaId == cid &&
      (applyDelivery c p dId cid tipo comp).tipo == tipo &&
      (applyDelivery c p dId cid tipo comp).competencia == comp) = true := by
  rw [Bool.and_eq_true, Bool.and_eq_true] at hc
  rw [Bool.and_eq_true, Bool.and_eq_true]
  refine ⟨⟨beq_self_eq_true cid, ?_⟩, ?_⟩
  · show (pOr tipo c.tipo == tipo) = true
    cases htipo with
    | inl h0 =>
        subst h0
        rw [@pOr_falsy PyVal.none c.tipo rfl]
        exact hc.1.2
    | inr h0 =>
        rw [pOr_truthy _ h0]
        exact beq_self_eq_true tipo
  · cases comp with
    | some c2 => exact beq_self_eq_true (Option.some c2)
    | none => exact hc.2

theorem tripleMatch_fresh {p : Payload} {nid cid : Nat} {dId : Option Int}
    {tipo : PyVal} {comp : Option String}
    (htipo : tipo = PyVal.none ∨ tipo.truthy = true) :
    ((applyDelivery (freshDelivery nid cid dId) p dId cid tipo comp).empresaId == cid &&
      (applyDelivery (freshDelivery nid cid dId) p dId cid tipo comp).tipo == tipo &&
      (applyDelivery (freshDelivery nid cid dId) p dId cid tipo comp).competencia == comp)
      = true := by
  rw [Bool.and_eq_true, Bool.and_eq_true]
  refine ⟨⟨beq_self_eq_true cid, ?_⟩, ?_⟩
  · show (pOr tipo PyVal.none == tipo) = true
    cases htipo with
    | inl h0 =>
        subst h0
        rw [@pOr_falsy PyVal.none PyVal.none rfl]
        exact beq_self_eq_true PyVal.none
    | inr h0 =>
        rw [pOr_truthy _ h0]
        exact beq_self_eq_true tipo
  · cases comp with
    | some c2 => exact beq_self_eq_true (Option.some c2)
    | none => exact beq_self_eq_true (Option.none : Option String)

theorem upsertDelivery_close {dbA : DB} {p : Payload} {comp : Option String} {cid : Nat}
    {r1 : DeliveryRow}
    (hco : upsertCompany dbA p = .ok (dbA, cid))
    (hcm : deliveryCompetencia p = .ok comp)
    (hlk : lookupDelivery dbA.deliveries (deliveryIdChain p) cid (deliveryTipo p) comp =
      .ok (Option.some r1))
    (happly2 : applyDelivery r1 p (deliveryIdChain p) cid (deliveryTipo p) comp = r1)
    (hrepl : replaceRow dbA.deliveries (fun x => x.id) r1.id r1 = dbA.deliveries)
    (hok : deliveriesOk dbA.deliveries = true) :
    upsertDelivery dbA p = .ok (dbA, r1.id) := by
  simp only [upsertDelivery, hco, hcm, hlk, happly2, hrepl, hok, eq_self_iff_true, if_true]

theorem upsertDelivery_stable {db db2 dbA : DB} {p : Payload} {did : Nat}
    (htipo : deliveryTipo p = PyVal.none ∨ (deliveryTipo p).truthy = true)
    (h : upsertDelivery db p = .ok (db2, did))
    (hAc : dbA.companies = db2.companies)
    (hAd : dbA.deliveries = db2.deliveries) :
    upsertDelivery dbA p = .ok (dbA, did) := by
  unfold upsertDelivery at h
  cases hcomp : upsertCompany db p with
  | error e => rw [hcomp] at h; exact Except.noConfusion h
  | ok pr =>
  obtain ⟨db1, cid⟩ := pr
  simp only [hcomp] at h
  cases hcm : deliveryCompetencia p with
  | error e => rw [hcm] at h; exact Except.noConfusion h
  | ok comp =>
  simp only [hcm] at h
  cases hlook : lookupDelivery db1.deliveries (deliveryIdChain p) cid (deliveryTipo p)
      comp with
  | error e => rw [hlook] at h; exact Except.noConfusion h
  | ok found =>
  cases found with
  | some c =>
    simp only [hlook] at h
    cases hok : deliveriesOk (replaceRow db1.deliveries (fun x => x.id) c.id
        (applyDelivery c p (deliveryIdChain p) cid (deliveryTipo p) comp)) with
    | false => rw [hok] at h; simp at h
    | true =>
    rw [if_pos hok] at h
    have hpair := Except.ok.inj h
    have hdid : (applyDelivery c p (deliveryIdChain p) cid (deliveryTipo p) comp).id = did := by
      have := congrArg (fun x => x.2) hpair
      simpa using this
    have hdbD : db2.deliveries = replaceRow db1.deliveries (fun x => x.id) c.id
        (applyDelivery c p (deliveryIdChain p) cid (deliveryTipo p) comp) := by
      have := congrArg (fun x => x.1.deliveries) hpair
      simpa using this.symm
    have hdbC : db2.companies = db1.companies := by
      have := congrArg (fun x => x.1.companies) hpair
      simpa using this.symm
    subst hdid
    have hAnl : dbA.deliveries = replaceRow db1.deliveries (fun x => x.id) c.id
        (applyDelivery c p (deliveryIdChain p) cid (deliveryTipo p) comp) := by
      rw [hAd, hdbD]
    have hok2 : deliveriesOk dbA.deliveries = true := by rw [hAnl]; exact hok
    have hnodupA := deliveriesOk_nodup hok2
    have hmap := @map_id_replaceRow DeliveryRow db1.deliveries (fun x => x.id) c.id
      (applyDelivery c p (deliveryIdChain p) cid (deliveryTipo p) comp) rfl
    have hnodup0 : (db1.deliveries.map (fun x => x.id)).Nodup := by
      rw [← hmap, ← hAnl]
      exact hnodupA
    have hco2 : upsertCompany dbA p = .ok (dbA, cid) :=
      upsertCompany_stable hcomp (by rw [hAc, hdbC])
    have happly2 := applyDelivery_idem c p (deliveryIdChain p) cid (deliveryTipo p) comp
    suffices hcore : c ∈ db1.deliveries ∧
        lookupDelivery dbA.deliveries (deliveryIdChain p) cid (deliveryTipo p) comp =
          .ok (Option.some (applyDelivery c p (deliveryIdChain p) cid (deliveryTipo p) comp)) by
      obtain ⟨hmemc, hlook2⟩ := hcore
      have hr1mem : (applyDelivery c p (deliveryIdChain p) cid (deliveryTipo p) comp) ∈ dbA.deliveries := by
        rw [hAnl]
        exact mem_replaceRow_of hmemc
      have hrepl := replaceRow_self hr1mem hnodupA
      exact upsertDelivery_close hco2 hcm hlook2 happly2 hrepl hok2
    cases hidc : deliveryIdChain p with
    | some i =>
        rw [hidc] at hlook hAnl
        simp only [lookupDelivery] at hlook
        cases hs1 : scalarOneOrNone db1.deliveries
            (fun r => r.idAcessorias == Option.some i) with
        | error e => rw [hs1] at hlook; exact Except.noConfusion hlook
        | ok o1 =>
        cases o1 with
        | some c0 =>
            rw [hs1] at hlook
            have hc0 : c0 = c := Option.some.inj (Except.ok.inj hlook)
            subst hc0
            have hcm0 := scalarOne_inv_mem hs1
            have huniq := scalarOne_inv_uniq hs1
            have hcidAc : c0.idAcessorias = Option.some i := by
              have := hcm0.2
              simpa using this
            refine ⟨hcm0.1, ?_⟩
            have hfil : (replaceRow db1.deliveries (fun x => x.id) c0.id
                (applyDelivery c0 p (Option.some i) cid (deliveryTipo p) comp)).filter
                (fun r => r.idAcessorias == Option.some i) =
                [applyDelivery c0 p (Option.some i) cid (deliveryTipo p) comp] := by
              apply filter_replaceRow_single hnodup0 hcm0.1
              · rfl
              · show (pyOrIntO (Option.some i) c0.idAcessorias == Option.some i) = true
                rw [pyOrIntO_some_of i hcidAc]
                exact beq_self_eq_true (Option.some i)
              · intro b hb hbne
                cases hbp : (b.idAcessorias == Option.some i) with
                | false => rfl
                | true => exact absurd (congrArg (fun x => x.id) (huniq b hb hbp)) hbne
            simp only [lookupDelivery, hAnl, scalar_of_filter_single hfil]
        | none =>
            rw [hs1] at hlook
            have hlookT : scalarOneOrNone db1.deliveries
                (fun r => r.empresaId == cid && r.tipo == deliveryTipo p &&
                  r.competencia == comp) = .ok (Option.some c) := hlook
            have hnone1 := scalarOne_inv_none hs1
            have hcmT := scalarOne_inv_mem hlookT
            have huniqT := scalarOne_inv_uniq hlookT
            have htrip1 := @tripleMatch_apply c p (Option.some i) cid (deliveryTipo p)
              comp htipo hcmT.2
            refine ⟨hcmT.1, ?_⟩
            by_cases hi0 : i = 0
            · subst hi0
              have hfil1 : (replaceRow db1.deliveries (fun x => x.id) c.id
                  (applyDelivery c p (Option.some 0) cid (deliveryTipo p) comp)).filter
                  (fun r => r.idAcessorias == Option.some (0 : Int)) = [] := by
                apply filter_replaceRow_nil
                · show (pyOrIntO (Option.some 0) c.idAcessorias == Option.some (0 : Int))
                      = false
                  rw [pyOrIntO_some_zero]
                  exact hnone1 c hcmT.1
                · exact hnone1
              have hfil2 : (replaceRow db1.deliveries (fun x => x.id) c.id
                  (applyDelivery c p (Option.some 0) cid (deliveryTipo p) comp)).filter
                  (fun r => r.empresaId == cid && r.tipo == deliveryTipo p &&
                    r.competencia == comp) =
                  [applyDelivery c p (Option.some 0) cid (deliveryTipo p) comp] := by
                apply filter_replaceRow_single hnodup0 hcmT.1
                · rfl
                · exact htrip1
                · intro b hb hbne
                  cases hbp : (b.empresaId == cid && b.tipo == deliveryTipo p &&
                      b.competencia == comp) with
                  | false => rfl
                  | true => exact absurd (congrArg (fun x => x.id) (huniqT b hb hbp)) hbne
              simp only [lookupDelivery, hAnl, scalar_of_filter_nil hfil1,
                scalar_of_filter_single hfil2]
            · have hfil1 : (replaceRow db1.deliveries (fun x => x.id) c.id
                  (applyDelivery c p (Option.some i) cid (deliveryTipo p) comp)).filter
                  (fun r => r.idAcessorias == Option.some i) =
                  [applyDelivery c p (Option.some i) cid (deliveryTipo p) comp] := by
                apply filter_replaceRow_single hnodup0 hcmT.1
                · rfl
                · show (pyOrIntO (Option.some i) c.idAcessorias == Option.some i) = true
                  rw [pyOrIntO_some_ne hi0]
                  exact beq_self_eq_true (Option.some i)
                · intro b hb hbne
                  exact hnone1 b hb
              simp only [lookupDelivery, hAnl, scalar_of_filter_single hfil1]
    | none =>
        rw [hidc] at hlook hAnl
        simp only [lookupDelivery] at hlook
        have hcmT := scalarOne_inv_mem hlook
        have huniqT := scalarOne_inv_uniq hlook
        have htrip1 := @tripleMatch_apply c p Option.none cid (deliveryTipo p)
          comp htipo hcmT.2
        refine ⟨hcmT.1, ?_⟩
        have hfil2 : (replaceRow db1.deliveries (fun x => x.id) c.id
            (applyDelivery c p Option.none cid (deliveryTipo p) comp)).filter
            (fun r => r.empresaId == cid && r.tipo == deliveryTipo p &&
              r.competencia == comp) =
            [applyDelivery c p Option.none cid (deliveryTipo p) comp] := by
          apply filter_replaceRow_single hnodup0 hcmT.1
          · rfl
          · exact htrip1
          · intro b hb hbne
            cases hbp : (b.empresaId == cid && b.tipo == deliveryTipo p &&
                b.competencia == comp) with
            | false => rfl
            | true => exact absurd (congrArg (fun x => x.id) (huniqT b hb hbp)) hbne
        simp only [lookupDelivery, hAnl, scalar_of_filter_single hfil2]
  | none =>
    simp only [hlook] at h
    cases hok : deliveriesOk (db1.deliveries ++ [applyDelivery (freshDelivery db1.nextDeliveryId cid (deliveryIdChain p)) p (deliveryIdChain p) cid (deliveryTipo p) comp]) with
    | false => rw [hok] at h; simp at h
    | true =>
    rw [if_pos hok] at h
    have hpair := Except.ok.inj h
    have hdid : (applyDelivery (freshDelivery db1.nextDeliveryId cid (deliveryIdChain p)) p (deliveryIdChain p) cid (deliveryTipo p) comp).id = did := by
      have := congrArg (fun x => x.2) hpair
      simpa using this
    have hdbD : db2.deliveries = db1.deliveries ++ [applyDelivery (freshDelivery db1.nextDeliveryId cid (deliveryIdChain p)) p (deliveryIdChain p) cid (deliveryTipo p) comp] := by
      have := congrArg (fun x => x.1.deliveries) hpair
      simpa using this.symm
    have hdbC : db2.companies = db1.companies := by
      have := congrArg (fun x => x.1.companies) hpair
      simpa using this.symm
    subst hdid
    have hAnl : dbA.deliveries = db1.deliveries ++ [applyDelivery (freshDelivery db1.nextDeliveryId cid (deliveryIdChain p)) p (deliveryIdChain p) cid (deliveryTipo p) comp] := by
      rw [hAd, hdbD]
    have hok2 : deliveriesOk dbA.deliveries = true := by rw [hAnl]; exact hok
    have hnodupA := deliveriesOk_nodup hok2
    have hco2 : upsertCompany dbA p = .ok (dbA, cid) :=
      upsertCompany_stable hcomp (by rw [hAc, hdbC])
    have happly2 := applyDelivery_idem (freshDelivery db1.nextDeliveryId cid
      (deliveryIdChain p)) p (deliveryIdChain p) cid (deliveryTipo p) comp
    have hr1mem : (applyDelivery (freshDelivery db1.nextDeliveryId cid (deliveryIdChain p)) p (deliveryIdChain p) cid (deliveryTipo p) comp) ∈ dbA.deliveries := by
      rw [hAnl]
      simp
    have hrepl := replaceRow_self hr1mem hnodupA
    suffices hlook2 : lookupDelivery dbA.deliveries (deliveryIdChain p) cid
        (deliveryTipo p) comp = .ok (Option.some (applyDelivery (freshDelivery db1.nextDeliveryId cid (deliveryIdChain p)) p (deliveryIdChain p) cid (deliveryTipo p) comp)) by
      exact upsertDelivery_close hco2 hcm hlook2 happly2 hrepl hok2
    cases hidc : deliveryIdChain p with
    | some i =>
        rw [hidc] at hlook hAnl
        simp only [lookupDelivery] at hlook
        cases hs1 : scalarOneOrNone db1.deliveries
            (fun r => r.idAcessorias == Option.some i) with
        | error e => rw [hs1] at hlook; exact Except.noConfusion hlook
        | ok o1 =>
        cases o1 with
        | some c0 =>
            rw [hs1] at hlook
            exact Option.noConfusion (Except.ok.inj hlook)
        | none =>
            rw [hs1] at hlook
            have hnone1 := scalarOne_inv_none hs1
            have hfil1 : (db1.deliveries ++
                [applyDelivery (freshDelivery db1.nextDeliveryId cid (Option.some i)) p
                  (Option.some i) cid (deliveryTipo p) comp]).filter
                (fun r => r.idAcessorias == Option.some i) =
                [applyDelivery (freshDelivery db1.nextDeliveryId cid (Option.some i)) p
                  (Option.some i) cid (deliveryTipo p) comp] := by
              apply filter_append_single hnone1
              show (pyOrIntO (Option.some i) (Option.some i) == Option.some i) = true
              rw [pyOrIntO_some_of i rfl]
              exact beq_self_eq_true (Option.some i)
            simp only [lookupDelivery, hAnl, scalar_of_filter_single hfil1]
    | none =>
        rw [hidc] at hlook hAnl
        simp only [lookupDelivery] at hlook
        have hnoneT := scalarOne_inv_none hlook
        have htripF := @tripleMatch_fresh p db1.nextDeliveryId cid Option.none
          (deliveryTipo p) comp htipo
        have hfil2 : (db1.deliveries ++
            [applyDelivery (freshDelivery db1.nextDeliveryId cid Option.none) p
              Option.none cid (deliveryTipo p) comp]).filter
            (fun r => r.empresaId == cid && r.tipo == deliveryTipo p &&
              r.competencia == comp) =
            [applyDelivery (freshDelivery db1.nextDeliveryId cid Option.none) p
              Option.none cid (deliveryTipo p) comp] :=
          filter_append_single hnoneT htripF
        simp only [lookupDelivery, hAnl, scalar_of_filter_single hfil2]


/-! ### Delivery flush invariant and the bulk loop -/

theorem upsertDelivery_ok_inv {db db2 : DB} {p : Payload} {n : Nat}
    (h : upsertDelivery db p = .ok (db2, n)) : deliveriesOk db2.deliveries = true := by
  unfold upsertDelivery at h
  cases hcomp : upsertCompany db p with
  | error e => rw [hcomp] at h; exact Except.noConfusion h
  | ok pr =>
  obtain ⟨db1, cid⟩ := pr
  simp only [hcomp] at h
  cases hcm : deliveryCompetencia p with
  | error e => rw [hcm] at h; exact Except.noConfusion h
  | ok comp =>
  simp only [hcm] at h
  cases hlook : lookupDelivery db1.deliveries (deliveryIdChain p) cid (deliveryTipo p)
      comp with
  | error e => rw [hlook] at h; exact Except.noConfusion h
  | ok found =>
  cases found with
  | some c =>
    simp only [hlook] at h
    cases hok : deliveriesOk (replaceRow db1.deliveries (fun x => x.id) c.id
        (applyDelivery c p (deliveryIdChain p) cid (deliveryTipo p) comp)) with
    | false => rw [hok] at h; simp at h
    | true =>
    rw [if_pos hok] at h
    have hpair := Except.ok.inj h
    have hdbD : db2.deliveries = replaceRow db1.deliveries (fun x => x.id) c.id
        (applyDelivery c p (deliveryIdChain p) cid (deliveryTipo p) comp) := by
      have := congrArg (fun x => x.1.deliveries) hpair
      simpa using this.symm
    rw [hdbD]
    exact hok
  | none =>
    simp only [hlook] at h
    cases hok : deliveriesOk (db1.deliveries ++
        [applyDelivery (freshDelivery db1.nextDeliveryId cid (deliveryIdChain p)) p
          (deliveryIdChain p) cid (deliveryTipo p) comp]) with
    | false => rw [hok] at h; simp at h
    | true =>
    rw [if_pos hok] at h
    have hpair := Except.ok.inj h
    have hdbD : db2.deliveries = db1.deliveries ++
        [applyDelivery (freshDelivery db1.nextDeliveryId cid (deliveryIdChain p)) p
          (deliveryIdChain p) cid (deliveryTipo p) comp] := by
      have := congrArg (fun x => x.1.deliveries) hpair
      simpa using this.symm
    rw [hdbD]
    exact hok

theorem tripleUniqueB_of_ok {l : List DeliveryRow} (h : deliveriesOk l = true) :
    tripleUniqueB l = true := by
  unfold deliveriesOk at h
  unfold tripleUniqueB
  rw [Bool.and_eq_true, Bool.and_eq_true] at h
  exact h.2

theorem bulk_inv (rows : List Payload) :
    ∀ st : DB × Nat, tripleUniqueB st.1.deliveries = true →
      tripleUniqueB (rows.foldl
        (fun acc row =>
          match upsertDelivery acc.1 row with
          | .ok (db2, _) => (db2, acc.2 + 1)
          | .error _ => acc) st).1.deliveries = true := by
  induction rows with
  | nil => intro st hst; exact hst
  | cons r rest ih =>
      intro st hst
      rw [List.foldl_cons]
      apply ih
      cases hu : upsertDelivery st.1 r with
      | error e =>
          simp only [hu]
          exact hst
      | ok pr =>
          obtain ⟨db2, k⟩ := pr
          simp only [hu]
          exact tripleUniqueB_of_ok (upsertDelivery_ok_inv hu)

/-! ### The claims on upsert idempotence and the composite delivery key -/

/-- C1 (counterexample): re-upserting the identical delivery payload whose
obligation-name chain ends in the falsy string `""` creates a second row:
the stored `tipo` is `NULL`, which the SQL lookup `tipo == ""` never
matches. -/
theorem C1_counterexample :
    (upsertOnce c1DupPayload).deliveries.length = 1 ∧
    (upsertTwice c1DupPayload).deliveries.length = 2 := by
  decide

/-- C1 (amended): company and process upserts are idempotent for every
payload; delivery upserts are idempotent whenever the obligation-name chain
`Obrigacao or tipo or Nome` is either `None` or truthy. -/
theorem C1_amended :
    (∀ (db db2 : DB) (p : Payload) (cid : Nat),
        upsertCompany db p = .ok (db2, cid) →
        upsertCompany db2 p = .ok (db2, cid)) ∧
    (∀ (db db2 : DB) (p : Payload) (pid : Nat),
        upsertProcess db p = .ok (db2, pid) →
        upsertProcess db2 p = .ok (db2, pid)) ∧
    (∀ (db db2 : DB) (p : Payload) (did : Nat),
        (deliveryTipo p = PyVal.none ∨ (deliveryTipo p).truthy = true) →
        upsertDelivery db p = .ok (db2, did) →
        upsertDelivery db2 p = .ok (db2, did)) :=
  ⟨fun _ _ _ _ h => upsertCompany_stable h rfl,
   fun _ _ _ _ h => upsertProcess_stable h rfl rfl,
   fun _ _ _ _ ht h => upsertDelivery_stable ht h rfl rfl⟩

/-- C1 witness: the amended idempotence at concrete company, process and
delivery payloads. -/
theorem C1_amended_witness :
    upsertCompany dbC1 pcWit = .ok (dbC1, 1) ∧
    upsertProcess dbP1 ppWit = .ok (dbP1, 1) ∧
    upsertDelivery dbD1 pdWit = .ok (dbD1, 1) :=
  ⟨C1_amended.1 DB.empty dbC1 pcWit 1 (by rfl),
   C1_amended.2.1 DB.empty dbP1 ppWit 1 (by rfl),
   C1_amended.2.2 DB.empty dbD1 pdWit 1 (by decide) (by rfl)⟩

/-- C5 (counterexample): two delivery payloads with the identical
`(company, obligation name, competency)` data and differing statuses both
end up stored when the obligation name is the falsy `""`: the triple is
stored with a `NULL` tipo, exempt from the unique constraint. -/
theorem C5_counterexample :
    (bulkUpsertDeliveries DB.empty [c5NullPay1, c5NullPay2]).1.deliveries.map
        (fun r => (r.empresaId, r.tipo, r.competencia, r.situacao)) =
      [(1, PyVal.none, Option.some "2024-01", PyVal.str "Pendente"),
       (1, PyVal.none, Option.some "2024-01", PyVal.str "Entregue")] := by
  decide

/-- C5 (amended): bulk delivery upserts preserve "at most one row per
`(empresa_id, tipo, competencia)` triple with non-`NULL` components"; and
two same-triple payloads with a real obligation name fold into one row
carrying the later status. -/
theorem C5_amended :
    (∀ (db : DB) (rows : List Payload),
        tripleUniqueB db.deliveries = true →
        tripleUniqueB (bulkUpsertDeliveries db rows).1.deliveries = true) ∧
    (bulkUpsertDeliveries DB.empty [c5Pay1, c5Pay2]).1.deliveries.map
        (fun r => (r.empresaId, r.tipo, r.competencia, r.situacao)) =
      [(1, PyVal.str "DCTF", Option.some "2024-01", PyVal.str "Entregue")] := by
  constructor
  · intro db rows hdb
    unfold bulkUpsertDeliveries
    exact bulk_inv rows (db, 0) hdb
  · decide

/-- C5 witness: the preserved uniqueness at the concrete two-payload bulk
upsert. -/
theorem C5_amended_witness :
    tripleUniqueB (bulkUpsertDeliveries DB.empty [c5Pay1, c5Pay2]).1.deliveries = true :=
  C5_amended.1 DB.empty [c5Pay1, c5Pay2] (by decide)

end Gestor
